import Mathlib

/-!
# Negotiation core of sgsh (`negotiate.c`): embedding and properties

The C translation unit keeps the negotiation session in file-scope variables
(`chosen_mb`, `mb_is_updated`, `self_node`, `self_dispatcher`,
`graph_solution`).  The embedding threads them explicitly as a `State` record.

Conventions of the embedding

* `int` and `pid_t` values are mathematical integers (`Int`).  Signed overflow
  is undefined in C; runs that would overflow are outside the model.
* A C array together with its element count (`node_array`/`n_nodes`,
  `edge_array`/`n_edges`, the per-node edge arrays of a solution) is a `List`;
  the count is the length of the list.
* Storage allocation (`malloc`, `realloc`) always succeeds and `free` has no
  observable effect; the byte sizes passed to the allocator are not modelled.
* A run that does not return normally ends in a `Fault`:
  `exited` when `err(1, ...)` of `<err.h>` terminates the process,
  `aborted` when an `assert` fails, `undefined` when C gives the step no
  meaning (division by zero, an array read outside its bounds, ...).
* A local variable that the source reads before writing it is an explicit
  argument of the embedded function: the value the variable happens to hold.
  The same goes for fields read from storage fresh from `malloc`, and for
  pointer variables used before they are set, whose argument tells whether
  the variable holds an address that can be used at all.
* The fields `from` and `to` of `struct sgsh_edge` are spelled `from_` and
  `to_`, both words being reserved.
-/

namespace Sgsh

/-! ## Return codes and descriptor numbers -/

def OP_SUCCESS : Int := 0
def OP_ERROR : Int := 1
def OP_QUIT : Int := 2
def OP_EXISTS : Int := 3
def OP_CREATE : Int := 4
def OP_NOOP : Int := 5

/-- Descriptor number of standard input (`<unistd.h>`). -/
def STDIN_FILENO : Int := 0
/-- Descriptor number of standard output (`<unistd.h>`). -/
def STDOUT_FILENO : Int := 1

/-! ## Abnormal termination -/

/-- Ways in which a run of the C code stops without returning. -/
inductive Fault where
  /-- Process terminated by `err(1, ...)`. -/
  | exited
  /-- Process aborted by a failed `assert`. -/
  | aborted
  /-- Step without defined behaviour in C. -/
  | undefined
  /-- Process waiting for ever for input that never arrives. -/
  | blocked
  /-- Bytes copied into an object of another type or size than the one they
  were taken from; the result depends on the layout of the objects in memory,
  which the embedding does not track. -/
  | reinterpreted
deriving DecidableEq, Repr

/-- Outcome of running a C function: a fault, or its normal result. -/
abbrev Run (α : Type) : Type := Except Fault α

/-- Model of `assert(c)`. -/
def c_assert (c : Bool) : Run Unit :=
  if c then Except.ok () else Except.error Fault.aborted

/-- Read of `a[i]` for a C `int` index: defined only inside the array. -/
def array_read {α : Type} (a : List α) (i : Int) : Run α :=
  if 0 ≤ i then
    match a[i.toNat]? with
    | some x => Except.ok x
    | none => Except.error Fault.undefined
  else Except.error Fault.undefined

/-! ## Data model (`struct` declarations of negotiate.c) -/

/-- Model of `struct dispatcher_node`: node and descriptor that sent the block. -/
structure dispatcher_node where
  index : Int
  fd_direction : Int
deriving DecidableEq, Repr

/-- Model of `struct sgsh_edge`: an I/O connection between two tools. -/
structure sgsh_edge where
  from_ : Int
  to_ : Int
  instances : Int
deriving DecidableEq, Repr

/-- Model of `struct sgsh_node`: a tool taking part in the graph. -/
structure sgsh_node where
  pid : Int
  index : Int
  name : String
  requires_channels : Int
  provides_channels : Int
  sgsh_in : Int
  sgsh_out : Int
deriving DecidableEq, Repr

/-- Model of `struct sgsh_negotiation`: the message block.  `n_nodes` and
`n_edges` are the lengths of the two arrays; `version` is a `double` in the
source that the code only stores and copies. -/
structure sgsh_negotiation where
  version : Int
  node_array : List sgsh_node
  edge_array : List sgsh_edge
  initiator_pid : Int
  state_flag : Int
  serial_no : Int
  origin : dispatcher_node
deriving DecidableEq, Repr

/-- Field `n_nodes` of the message block. -/
def sgsh_negotiation.n_nodes (mb : sgsh_negotiation) : Int := mb.node_array.length

/-- Field `n_edges` of the message block. -/
def sgsh_negotiation.n_edges (mb : sgsh_negotiation) : Int := mb.edge_array.length

/-- Model of `struct sgsh_node_connections`: one node's piece of the solution. -/
structure sgsh_node_connections where
  node_index : Int
  edges_incoming : List sgsh_edge
  edges_outgoing : List sgsh_edge
deriving DecidableEq, Repr

/-- The file-scope variables of negotiate.c. -/
structure State where
  chosen_mb : sgsh_negotiation
  mb_is_updated : Int
  self_node : sgsh_node
  self_dispatcher : dispatcher_node
  graph_solution : List sgsh_node_connections
deriving DecidableEq, Repr

/-! ## Constraint solver -/

/-- Contents, on entry, of the two locals of `satisfy_io_constraints` that the
source declares without an initial value: the accumulator
`total_edge_constraints`, to which the aggregation loop adds, and `instances`,
which `eval_constraints` assigns on every path that returns `OP_SUCCESS`. -/
structure io_locals where
  total_edge_constraints : Int
  instances : Int
deriving DecidableEq, Repr

/-- Channel constraint of the node at the other end of edge `e`, as both loops
over a side's edges compute it: the peer's `provides_channels` for an incoming
edge, its `requires_channels` for an outgoing one. -/
def edge_constraint (node_array : List sgsh_node) (is_edge_incoming : Int) (e : sgsh_edge) :
    Run Int := do
  if is_edge_incoming ≠ 0 then
    let nd ← array_read node_array e.from_
    Except.ok nd.provides_channels
  else
    let nd ← array_read node_array e.to_
    Except.ok nd.requires_channels

/-- The loop of `assign_edge_instances` over the edges of one side.  It
threads `remaining_free_channels` and `count_channels` and returns the edges
with the `instances` written to them. -/
def assign_edge_instances_loop (node_array : List sgsh_node) (is_edge_incoming : Int)
    (instances_to_each_unlimited : Int) :
    List sgsh_edge → Int → Int → Run (List sgsh_edge × Int × Int)
  | [], remaining_free_channels, count_channels =>
      Except.ok ([], remaining_free_channels, count_channels)
  | e :: es, remaining_free_channels, count_channels => do
      let c ← edge_constraint node_array is_edge_incoming e
      let (inst, rem) : Int × Int :=
        if c = -1 then
          if remaining_free_channels > 0 then
            (instances_to_each_unlimited + 1, remaining_free_channels - 1)
          else (instances_to_each_unlimited, remaining_free_channels)
        else (c, remaining_free_channels)
      let (es, rem, cnt) ←
        assign_edge_instances_loop node_array is_edge_incoming instances_to_each_unlimited
          es rem (count_channels + inst)
      Except.ok ({ e with instances := inst } :: es, rem, cnt)

/-- Model of `assign_edge_instances`.  `edges` holds the records the pointer
array points to; the result holds them as the writes through the pointers
leave them.  The parameter `n_edges_unlimited_constraint` is not used by the
body. -/
def assign_edge_instances (node_array : List sgsh_node) (edges : List sgsh_edge)
    (this_node_channels is_edge_incoming n_edges_unlimited_constraint
      instances_to_each_unlimited remaining_free_channels total_instances : Int) :
    Run (Int × List sgsh_edge) := do
  let (edges, _, count_channels) ←
    assign_edge_instances_loop node_array is_edge_incoming instances_to_each_unlimited
      edges remaining_free_channels 0
  if this_node_channels = -1 then
    c_assert (total_instances == count_channels)
  else
    c_assert (this_node_channels == total_instances)
    c_assert (total_instances == count_channels)
  Except.ok (OP_SUCCESS, edges)

/-- Model of `eval_constraints`.  The four pointer parameters are value
parameters here and the result carries the return code followed by the final
`*instances_to_each_unlimited`, `*remaining_free_channels` and `*instances`.
In the unlimited branch the source tests `n_edges_unlimited_constraint > 0` on
the pointer, not on the count it points to, so the test holds for every call.
`/` and `%` of C truncate towards zero (`Int.tdiv`, `Int.tmod`) and have no
defined result for a zero divisor. -/
def eval_constraints (this_node_channels total_edge_constraints n_edges_unlimited_constraint
    instances_to_each_unlimited remaining_free_channels instances : Int) :
    Run (Int × Int × Int × Int) :=
  if this_node_channels = -1 then
    let instances := total_edge_constraints
    let instances_to_each_unlimited := 5
    let instances := instances + n_edges_unlimited_constraint * instances_to_each_unlimited
    Except.ok (OP_SUCCESS, instances_to_each_unlimited, remaining_free_channels, instances)
  else if this_node_channels < total_edge_constraints + n_edges_unlimited_constraint then
    Except.ok (OP_ERROR, instances_to_each_unlimited, remaining_free_channels, instances)
  else if this_node_channels = total_edge_constraints + n_edges_unlimited_constraint then
    Except.ok (OP_SUCCESS, 1, remaining_free_channels, this_node_channels)
  else if n_edges_unlimited_constraint = 0 then
    Except.error Fault.undefined
  else
    Except.ok (OP_SUCCESS,
      Int.tdiv (this_node_channels - total_edge_constraints) n_edges_unlimited_constraint,
      Int.tmod (this_node_channels - total_edge_constraints) n_edges_unlimited_constraint,
      this_node_channels)

/-- The aggregation loop of `satisfy_io_constraints`: adds every fixed peer
constraint to `total_edge_constraints` and counts the peers whose constraint
is -1 in `n_edges_unlimited_constraint`. -/
def satisfy_io_constraints_aggregate (node_array : List sgsh_node) (is_edge_incoming : Int) :
    List sgsh_edge → Int → Int → Run (Int × Int)
  | [], total_edge_constraints, n_edges_unlimited_constraint =>
      Except.ok (total_edge_constraints, n_edges_unlimited_constraint)
  | e :: es, total_edge_constraints, n_edges_unlimited_constraint => do
      let c ← edge_constraint node_array is_edge_incoming e
      if c ≠ -1 then
        satisfy_io_constraints_aggregate node_array is_edge_incoming es
          (total_edge_constraints + c) n_edges_unlimited_constraint
      else
        satisfy_io_constraints_aggregate node_array is_edge_incoming es
          total_edge_constraints (n_edges_unlimited_constraint + 1)

/-- Model of `satisfy_io_constraints`.  `node_array` is
`chosen_mb->node_array`; `edges` holds the records the pointer array points
to and the result holds them as left by the call; `locals` gives what the two
uninitialised locals hold on entry. -/
def satisfy_io_constraints (node_array : List sgsh_node) (locals : io_locals)
    (this_node_channels : Int) (edges : List sgsh_edge) (is_edge_incoming : Int) :
    Run (Int × List sgsh_edge) := do
  let (total_edge_constraints, n_edges_unlimited_constraint) ←
    satisfy_io_constraints_aggregate node_array is_edge_incoming edges
      locals.total_edge_constraints 0
  let (r, instances_to_each_unlimited, remaining_free_channels, instances) ←
    eval_constraints this_node_channels total_edge_constraints n_edges_unlimited_constraint
      0 0 locals.instances
  if r = OP_ERROR then Except.ok (OP_ERROR, edges)
  else
    let (r, edges) ←
      assign_edge_instances node_array edges this_node_channels is_edge_incoming
        n_edges_unlimited_constraint instances_to_each_unlimited remaining_free_channels
        instances
    if r = OP_ERROR then Except.ok (OP_ERROR, edges)
    else Except.ok (OP_SUCCESS, edges)

/-- Writes made through an array of pointers, carried back to the array the
pointers point into: the records of `edge_array` selected by `sel`, in order,
are replaced by the records of `written`. -/
def store_back (sel : sgsh_edge → Bool) : List sgsh_edge → List sgsh_edge → List sgsh_edge
  | [], _ => []
  | e :: es, written =>
      if sel e then
        match written with
        | w :: ws => w :: store_back sel es ws
        | [] => e :: store_back sel es []
      else e :: store_back sel es written

/-- What one of the pointer variables `edges_incoming` and `edges_outgoing` of
`solve_sgsh_graph` holds when `dry_match_io_constraints` receives it: the
source declares the two variables and never assigns them.  Runs in which both
variables hold the address of one and the same object are outside the
model. -/
inductive unset_pointer where
  /-- Not the address of an object that holds a pointer `realloc` and `free`
  accept (a null or an unmapped address, for one): the first use through the
  variable has no defined meaning. -/
  | wild
  /-- The address of an object of its own that holds a null pointer, that is,
  an array of no pointers, which `realloc` can grow. -/
  | null_array
deriving DecidableEq, Repr

/-- Model of `dry_match_io_constraints`.  `edges_incoming` and
`edges_outgoing` tell what the two pointer arguments hold on entry, and
`n_edges_incoming` and `n_edges_outgoing` what the two counters hold that the
function increments through its `int *` arguments; `solve_sgsh_graph` sets
none of the four.

The gathering loop stores the pointer to the j-th edge it finds on a side
(j = 1, 2, ...) in slot `count + j - 1` of that side's array, `count` being
what the counter held on entry: with a wild pointer variable the store has no
defined meaning, and with a negative count the slot lies before the array.
Each call of `satisfy_io_constraints` then dereferences the pointer variable
of its side, and with a positive count it reads slot 0, which no one has
written.  In the runs that are left the pointers gathered for a side are
represented by the edge records they point to, in gathering order
(`List.filter` over `edge_array`), and the writes `satisfy_io_constraints`
makes through them are carried back with `store_back`.  The capacities
checked are those of `self_node`. -/
def dry_match_io_constraints (edges_incoming : unset_pointer) (n_edges_incoming : Int)
    (edges_outgoing : unset_pointer) (n_edges_outgoing : Int)
    (outgoing_locals incoming_locals : io_locals) (node_index : Int)
    (s : State) : Run (Int × State) := do
  let n_free_in_channels := s.self_node.requires_channels
  let n_free_out_channels := s.self_node.provides_channels
  let is_outgoing : sgsh_edge → Bool := fun e => e.from_ == node_index
  let is_incoming : sgsh_edge → Bool := fun e => e.to_ == node_index
  if (s.chosen_mb.edge_array.any is_outgoing ∧
        (edges_outgoing = unset_pointer.wild ∨ n_edges_outgoing < 0)) ∨
      (s.chosen_mb.edge_array.any is_incoming ∧
        (edges_incoming = unset_pointer.wild ∨ n_edges_incoming < 0)) then
    Except.error Fault.undefined
  else if edges_outgoing = unset_pointer.wild ∨ 0 < n_edges_outgoing then
    Except.error Fault.undefined
  else
    let gathered_outgoing := s.chosen_mb.edge_array.filter is_outgoing
    let (r, written) ←
      satisfy_io_constraints s.chosen_mb.node_array outgoing_locals n_free_out_channels
        gathered_outgoing 0
    let s := { s with chosen_mb :=
      { s.chosen_mb with edge_array := store_back is_outgoing s.chosen_mb.edge_array written } }
    if r = OP_ERROR then Except.ok (OP_ERROR, s)
    else if edges_incoming = unset_pointer.wild ∨ 0 < n_edges_incoming then
      Except.error Fault.undefined
    else
      let gathered_incoming := s.chosen_mb.edge_array.filter is_incoming
      let (r, written) ←
        satisfy_io_constraints s.chosen_mb.node_array incoming_locals n_free_in_channels
          gathered_incoming 1
      let s := { s with chosen_mb :=
        { s.chosen_mb with edge_array := store_back is_incoming s.chosen_mb.edge_array written } }
      if r = OP_ERROR then Except.ok (OP_ERROR, s)
      else Except.ok (OP_SUCCESS, s)

/-- Contents of the storage one iteration of the loop of `solve_sgsh_graph`
reads without having written it: the pointer variables `edges_incoming` and
`edges_outgoing`, which the function declares and hands on as they are; the
fields `n_edges_incoming`, `n_edges_outgoing` and `node_index` of the solution
record, which lie in storage fresh from `malloc` and of which the last is
never assigned; and the locals of the two calls of
`satisfy_io_constraints`. -/
structure solve_locals where
  node_index : Int
  edges_incoming : unset_pointer
  n_edges_incoming : Int
  edges_outgoing : unset_pointer
  n_edges_outgoing : Int
  outgoing : io_locals
  incoming : io_locals
deriving DecidableEq, Repr

/-- Model of `make_compact_edge_array`: the records behind the pointers
gathered for one side (those selected by `sel`), copied into an array of
their own. -/
def make_compact_edge_array (sel : sgsh_edge → Bool) (s : State) : List sgsh_edge :=
  s.chosen_mb.edge_array.filter sel

/-- The loop of `solve_sgsh_graph` over the nodes still to be treated; `i` is
the loop counter and `acc` the part of `graph_solution` filled so far.  A node
whose constraints `dry_match_io_constraints` cannot satisfy ends the run in
`err(1, ...)`.  The copies made by `make_compact_edge_array` are taken after
`dry_match_io_constraints` has returned.  `dry_match_io_constraints` is handed
the two pointer variables and the two counters with what `locals i` says they
hold.  When `dry_match_io_constraints` returns, a counter found at 0 counts
the edges gathered; one found negative has gathered no edge and is still
negative, so that the record keeps an empty array next to a negative count,
of which the record of the embedding, a list, shows the array only. -/
def solve_sgsh_graph_loop (locals : Nat → solve_locals) :
    List sgsh_node → Nat → List sgsh_node_connections → State → Run (Int × State)
  | [], _, acc, s => Except.ok (OP_SUCCESS, { s with graph_solution := acc })
  | nd :: nds, i, acc, s => do
      let node_index := nd.index
      let (r, s) ←
        dry_match_io_constraints (locals i).edges_incoming (locals i).n_edges_incoming
          (locals i).edges_outgoing (locals i).n_edges_outgoing
          (locals i).outgoing (locals i).incoming node_index s
      if r = OP_ERROR then Except.error Fault.exited
      else
        let nc : sgsh_node_connections :=
          { node_index := (locals i).node_index
            edges_incoming := make_compact_edge_array (fun e => e.to_ == node_index) s
            edges_outgoing := make_compact_edge_array (fun e => e.from_ == node_index) s }
        solve_sgsh_graph_loop locals nds (i + 1) (acc ++ [nc]) s

/-- Model of `solve_sgsh_graph`.  `locals i` gives the contents of the storage
that iteration `i` reads before it is written. -/
def solve_sgsh_graph (locals : Nat → solve_locals) (s : State) : Run (Int × State) :=
  solve_sgsh_graph_loop locals s.chosen_mb.node_array 0 [] s

/-! ## Node and edge registry -/

/-- Model of `add_node`: the record of this tool is copied to the end of the
node array, and only afterwards `self_dispatcher.index` and `self_node.index`
are set to the position used. -/
def add_node (s : State) : Run (Int × State) :=
  let n_nodes := s.chosen_mb.n_nodes
  Except.ok (OP_SUCCESS,
    { s with
      chosen_mb := { s.chosen_mb with node_array := s.chosen_mb.node_array ++ [s.self_node] }
      self_dispatcher := { s.self_dispatcher with index := n_nodes }
      self_node := { s.self_node with index := n_nodes } })

/-- Model of `lookup_sgsh_edge`: `OP_EXISTS` when some edge of the block has
the endpoints of `e`, `OP_CREATE` otherwise. -/
def lookup_sgsh_edge (s : State) (e : sgsh_edge) : Int :=
  if s.chosen_mb.edge_array.any (fun x => x.from_ == e.from_ && x.to_ == e.to_)
  then OP_EXISTS else OP_CREATE

/-- Value of `i` when the search loop `for (i = 0; n_nodes; i++) if (i ==
origin.index) break;` of `fill_sgsh_edge` is left.  The loop condition is
`n_nodes` itself: with no node the body never runs and `i` stays 0; otherwise
`i` counts up until it meets `origin.index`, which for a negative index means
counting past `INT_MAX`. -/
def fill_sgsh_edge_search (n_nodes origin_index : Int) : Run Int :=
  if n_nodes = 0 then Except.ok 0
  else if 0 ≤ origin_index then Except.ok origin_index
  else Except.error Fault.undefined

/-- Model of `fill_sgsh_edge`.  The argument `e` is the record the caller
passes by address; the function returns it with the endpoints it has set. -/
def fill_sgsh_edge (s : State) (e : sgsh_edge) : Run (Int × sgsh_edge) := do
  let n_nodes := s.chosen_mb.n_nodes
  let i ← fill_sgsh_edge_search n_nodes s.chosen_mb.origin.index
  if i = n_nodes then
    Except.error Fault.exited
  else if s.chosen_mb.origin.fd_direction = STDIN_FILENO then
    let e := { e with to_ := s.chosen_mb.origin.index }
    c_assert (s.self_node.sgsh_out != 0)
    c_assert ((s.self_node.sgsh_in != 0 && s.self_dispatcher.fd_direction == STDIN_FILENO)
      || s.self_dispatcher.fd_direction == STDOUT_FILENO)
    let e := { e with from_ := s.self_dispatcher.index }
    Except.ok (OP_SUCCESS, e)
  else if s.chosen_mb.origin.fd_direction = STDOUT_FILENO then
    let e := { e with from_ := s.chosen_mb.origin.index }
    c_assert (s.self_node.sgsh_in != 0)
    c_assert ((s.self_node.sgsh_out != 0 && s.self_dispatcher.fd_direction == STDOUT_FILENO)
      || s.self_dispatcher.fd_direction == STDIN_FILENO)
    let e := { e with to_ := s.self_dispatcher.index }
    Except.ok (OP_SUCCESS, e)
  else
    Except.ok (OP_SUCCESS, e)

/-- Model of `add_edge`: the record is copied to the end of the edge array. -/
def add_edge (s : State) (edge : sgsh_edge) : Run (Int × State) :=
  Except.ok (OP_SUCCESS,
    { s with chosen_mb := { s.chosen_mb with edge_array := s.chosen_mb.edge_array ++ [edge] } })

/-- Model of `try_add_sgsh_edge`.  `new_edge` is the content of the local
record of that name on entry; the source does not initialise it, and
`fill_sgsh_edge` never writes its `instances` field.  The code returned by
`fill_sgsh_edge` is not inspected. -/
def try_add_sgsh_edge (new_edge : sgsh_edge) (s : State) : Run (Int × State) := do
  if 0 ≤ s.chosen_mb.origin.index then
    let (_, new_edge) ← fill_sgsh_edge s new_edge
    if lookup_sgsh_edge s new_edge = OP_CREATE then
      let (r, s) ← add_edge s new_edge
      if r = OP_ERROR then Except.ok (OP_ERROR, s)
      else
        let s := { s with chosen_mb := { s.chosen_mb with serial_no := s.chosen_mb.serial_no + 1 } }
        let s := { s with mb_is_updated := 1 }
        Except.ok (OP_SUCCESS, s)
    else Except.ok (OP_EXISTS, s)
  else Except.ok (OP_NOOP, s)

/-- Model of `try_add_sgsh_node`: this tool's node is appended unless a node
with its pid is already in the block. -/
def try_add_sgsh_node (s : State) : Run (Int × State) := do
  if s.chosen_mb.node_array.any (fun nd => nd.pid == s.self_node.pid) then
    Except.ok (OP_EXISTS, s)
  else
    let (r, s) ← add_node s
    if r = OP_ERROR then Except.ok (OP_ERROR, s)
    else
      let s := { s with chosen_mb := { s.chosen_mb with serial_no := s.chosen_mb.serial_no + 1 } }
      let s := { s with mb_is_updated := 1 }
      Except.ok (OP_SUCCESS, s)

/-- Model of `fill_sgsh_node`: the record of this tool is filled from the
arguments, and its index is set to -1 until the node is added to the
graph. -/
def fill_sgsh_node (tool_name : String) (pid requires_channels provides_channels : Int)
    (s : State) : State :=
  { s with self_node := { s.self_node with
      pid := pid, name := tool_name, requires_channels := requires_channels,
      provides_channels := provides_channels, index := -1 } }

/-! ## Competition rule -/

/-- Model of `compete_message_block`.  The result carries the return code,
the value left in `*should_transmit_mb`, and the state.  `new_edge` is the
content of the uninitialised local of `try_add_sgsh_edge`. -/
def compete_message_block (new_edge : sgsh_edge) (fresh_mb : sgsh_negotiation) (s : State) :
    Run (Int × Int × State) := do
  let should_transmit_mb : Int := 1
  let s := { s with mb_is_updated := 0 }
  if fresh_mb.initiator_pid < s.chosen_mb.initiator_pid then
    let s := { s with chosen_mb := fresh_mb }
    let (r, s) ← try_add_sgsh_node s
    if r = OP_ERROR then Except.ok (OP_ERROR, should_transmit_mb, s)
    else
      let (r, s) ← try_add_sgsh_edge new_edge s
      if r = OP_ERROR then Except.ok (OP_ERROR, should_transmit_mb, s)
      else
        let s := { s with mb_is_updated := 1 }
        Except.ok (OP_SUCCESS, should_transmit_mb, s)
  else if fresh_mb.initiator_pid > s.chosen_mb.initiator_pid then
    let should_transmit_mb : Int := 0
    Except.ok (OP_SUCCESS, should_transmit_mb, s)
  else
    let s :=
      if fresh_mb.serial_no > s.chosen_mb.serial_no then
        { s with mb_is_updated := 1, chosen_mb := fresh_mb }
      else s
    let (r, s) ← try_add_sgsh_edge new_edge s
    if r = OP_ERROR then Except.ok (OP_ERROR, should_transmit_mb, s)
    else Except.ok (OP_SUCCESS, should_transmit_mb, s)

/-! ## Round controller: end of negotiation -/

/-- Values of the constants `PROT_STATE_NEGOTIATION`,
`PROT_STATE_NEGOTIATION_END`, `PROT_STATE_SOLUTION_SHARE` and
`PROT_STATE_ERROR`.  They are declared in `sgsh-negotiate.h`, which is not
part of the sources at hand, so the functions that use them take them as a
parameter. -/
structure prot_state where
  NEGOTIATION : Int
  NEGOTIATION_END : Int
  SOLUTION_SHARE : Int
  ERROR : Int
deriving DecidableEq, Repr

/-- Model of `check_negotiation_round`.  The result carries the value left in
`*negotiation_round` and the state. -/
def check_negotiation_round (P : prot_state) (negotiation_round : Int) (s : State) :
    Int × State :=
  if s.chosen_mb.state_flag = P.NEGOTIATION then
    let negotiation_round :=
      if s.self_node.pid = s.chosen_mb.initiator_pid then negotiation_round + 1
      else negotiation_round
    if s.mb_is_updated = 0 then
      (negotiation_round,
        { s with
          chosen_mb := { s.chosen_mb with
            state_flag := P.NEGOTIATION_END
            serial_no := s.chosen_mb.serial_no + 1 }
          mb_is_updated := 1 })
    else (negotiation_round, s)
  else (negotiation_round, s)

/-! ## Solution broadcaster: descriptors -/

/-- Model of `get_next_sd`. -/
def get_next_sd (counted_sd_descriptors : Int) : Int :=
  if counted_sd_descriptors = 1 then 1
  else if counted_sd_descriptors = 2 then 3
  else counted_sd_descriptors + 1

/-- Model of `free_graph_solution`.  Releasing storage has no effect that the
embedding tracks, but the loop reads the records 0 to `node_index` of
`graph_solution` to find the arrays to release. -/
def free_graph_solution (node_index : Int) (s : State) : Run Unit :=
  if node_index < s.graph_solution.length then Except.ok ()
  else Except.error Fault.undefined

/-- The inner loop of `alloc_write_output_fds` for one outgoing edge: `n` more
instances to send.  `sendmsg k` is what the call of `sendmsg` made after `k`
successful ones returns.  The result carries the value left in `re`, the count
`total_sd_descriptors` and the socket descriptors the calls of `sendmsg` were
made on, in order. -/
def alloc_write_output_fds_instances (sendmsg : Nat → Int) :
    Nat → Nat → Int × Nat × List Int
  | 0, total_sd_descriptors => (OP_SUCCESS, total_sd_descriptors, [])
  | n + 1, total_sd_descriptors =>
      let sd := get_next_sd total_sd_descriptors
      if sendmsg total_sd_descriptors < 0 then (OP_ERROR, total_sd_descriptors, [sd])
      else
        let (re, total, sds) :=
          alloc_write_output_fds_instances sendmsg n (total_sd_descriptors + 1)
        (re, total, sd :: sds)

/-- The outer loop of `alloc_write_output_fds` over the outgoing edges of this
node. -/
def alloc_write_output_fds_edges (sendmsg : Nat → Int) :
    List sgsh_edge → Nat → Int × Nat × List Int
  | [], total_sd_descriptors => (OP_SUCCESS, total_sd_descriptors, [])
  | e :: es, total_sd_descriptors =>
      let (re, total, sds) :=
        alloc_write_output_fds_instances sendmsg e.instances.toNat total_sd_descriptors
      if re = OP_ERROR then (OP_ERROR, total, sds)
      else
        let (re, total, sds') := alloc_write_output_fds_edges sendmsg es total
        (re, total, sds ++ sds')

/-- Model of `alloc_write_output_fds`.  The result carries the return code,
the number of descriptor messages sent with success and the socket
descriptors `sendmsg` was called on, in order.  The pipes themselves are not
modelled. -/
def alloc_write_output_fds (sendmsg : Nat → Int) (s : State) : Run (Int × Nat × List Int) := do
  let this_nc ← array_read s.graph_solution s.self_node.index
  c_assert (this_nc.node_index == s.self_node.index)
  let (re, total_sd_descriptors, sds) :=
    alloc_write_output_fds_edges sendmsg this_nc.edges_outgoing 0
  if re = OP_ERROR then
    free_graph_solution s.chosen_mb.n_nodes s
    Except.ok (re, total_sd_descriptors, sds)
  else Except.ok (re, total_sd_descriptors, sds)

/-! ## Message-block codec -/

/-- Values of `sizeof` for the types whose bytes travel between tools.  They
depend on the platform, so the codec takes them as a parameter. -/
structure sizes where
  negotiation : Int
  node : Int
  edge : Int
  node_connections : Int
  c_int : Int
deriving DecidableEq, Repr

/-- The bytes of a `struct sgsh_negotiation` as they travel: the scalar
fields and the two counts; the two array pointers are NULL on the wire. -/
structure mb_header where
  version : Int
  n_nodes : Int
  n_edges : Int
  initiator_pid : Int
  state_flag : Int
  serial_no : Int
  origin : dispatcher_node
deriving DecidableEq, Repr

/-- The bytes of a `struct sgsh_node_connections` as they travel: the index
and the two counts; the two array pointers it carries are addresses of the
sending process and mean nothing to the receiver. -/
structure node_connections_header where
  node_index : Int
  n_edges_incoming : Int
  n_edges_outgoing : Int
deriving DecidableEq, Repr

/-- What one call of `write` hands over: the bytes of one object or array,
represented by the value they were copied from. -/
inductive chunk where
  | negotiation (h : mb_header)
  | nodes (a : List sgsh_node)
  | edges (a : List sgsh_edge)
  | node_connections (a : List node_connections_header)
deriving DecidableEq, Repr

/-- Number of bytes of a chunk. -/
def chunk.size (sz : sizes) : chunk → Int
  | chunk.negotiation _ => sz.negotiation
  | chunk.nodes a => sz.node * a.length
  | chunk.edges a => sz.edge * a.length
  | chunk.node_connections a => sz.node_connections * a.length

/-- What the next call of `read` that does not report `EAGAIN` does: it is
made on standard input or on standard output and delivers a chunk, or fails
with an error number. -/
inductive read_event where
  | data (on_stdin : Bool) (c : chunk)
  | failure (on_stdin : Bool) (errno : Int)
deriving DecidableEq, Repr

/-- The scalar fields and counts of a block. -/
def sgsh_negotiation.header (mb : sgsh_negotiation) : mb_header :=
  { version := mb.version, n_nodes := mb.n_nodes, n_edges := mb.n_edges,
    initiator_pid := mb.initiator_pid, state_flag := mb.state_flag,
    serial_no := mb.serial_no, origin := mb.origin }

/-- The index and counts of a solution record. -/
def sgsh_node_connections.header (nc : sgsh_node_connections) : node_connections_header :=
  { node_index := nc.node_index, n_edges_incoming := nc.edges_incoming.length,
    n_edges_outgoing := nc.edges_outgoing.length }

/-- The block `*fresh_mb` as `try_read_message_block` builds it: the header
read, the node array read, and the edge array, which stays NULL (`none`)
unless an edge array is read. -/
structure fresh_block where
  header : mb_header
  node_array : List sgsh_node
  edge_array : Option (List sgsh_edge)
deriving DecidableEq, Repr

/-- Model of `write_graph_solution`'s loop over the solution records: for
each record the incoming-edge array and then the outgoing-edge array are
handed to `write` on descriptor `fd`. -/
def write_graph_solution_loop (sz : sizes) (buf_size fd : Int) :
    List sgsh_node_connections → Run (List (Int × chunk))
  | [] => Except.ok []
  | nc :: ncs => do
      let in_edges_size := sz.edge * nc.edges_incoming.length
      let out_edges_size := sz.edge * nc.edges_outgoing.length
      if in_edges_size > buf_size ∨ out_edges_size > buf_size then
        Except.error Fault.exited
      else
        let rest ← write_graph_solution_loop sz buf_size fd ncs
        Except.ok ((fd, chunk.edges nc.edges_incoming) :: (fd, chunk.edges nc.edges_outgoing)
          :: rest)

/-- Model of `write_graph_solution`.  The result carries the return code and
what was handed to `write`, in order, each chunk with the descriptor written
to; what `write` returns is not inspected by the source.  The records sent
are the first `n_nodes` records of `graph_solution`. -/
def write_graph_solution (sz : sizes) (buf_size : Int) (s : State) :
    Run (Int × List (Int × chunk)) := do
  let n_nodes := s.chosen_mb.n_nodes
  let graph_solution_size := sz.node_connections * n_nodes
  if graph_solution_size > buf_size then Except.error Fault.exited
  else if s.graph_solution.length < s.chosen_mb.node_array.length then
    Except.error Fault.undefined
  else
    let records := s.graph_solution.take s.chosen_mb.node_array.length
    let fd := s.self_dispatcher.fd_direction
    let rest ← write_graph_solution_loop sz buf_size fd records
    Except.ok (OP_SUCCESS,
      (fd, chunk.node_connections (records.map sgsh_node_connections.header)) :: rest)

/-- Model of `set_dispatcher`. -/
def set_dispatcher (s : State) : Run State := do
  let s := { s with chosen_mb := { s.chosen_mb with
    origin := { s.chosen_mb.origin with index := s.self_dispatcher.index } } }
  c_assert (decide (s.self_dispatcher.index ≥ 0))
  Except.ok { s with chosen_mb := { s.chosen_mb with
    origin := { s.chosen_mb.origin with fd_direction := s.self_dispatcher.fd_direction } } }

/-- Model of `write_mb`.  The result carries the return code, the state, what
was handed to `write`, in order, and the socket descriptors `sendmsg` was
called on.  The header is copied into the buffer without a check of its size.
In the states other than `PROT_STATE_NEGOTIATION` the source leaves
`chosen_mb->edge_array` NULL after the call; the embedding keeps the list,
which the callers do not read again. -/
def write_mb (P : prot_state) (sz : sizes) (buf_size : Int) (sendmsg : Nat → Int) (s : State) :
    Run (Int × State × List (Int × chunk) × List Int) := do
  let mb_size := sz.negotiation
  let nodes_size := s.chosen_mb.n_nodes * sz.node
  let edges_size := s.chosen_mb.n_edges * sz.edge
  if nodes_size > buf_size ∨ edges_size > buf_size then Except.error Fault.exited
  else
    let s ← set_dispatcher s
    if mb_size > buf_size then Except.error Fault.undefined
    else
      let fd := s.self_dispatcher.fd_direction
      let written : List (Int × chunk) :=
        [(fd, chunk.negotiation s.chosen_mb.header), (fd, chunk.nodes s.chosen_mb.node_array)]
      if s.chosen_mb.state_flag = P.NEGOTIATION then
        Except.ok (OP_SUCCESS, s, written ++ [(fd, chunk.edges s.chosen_mb.edge_array)], [])
      else if s.chosen_mb.state_flag = P.SOLUTION_SHARE then
        let (r, solution) ← write_graph_solution sz buf_size s
        if r = OP_ERROR then Except.ok (OP_ERROR, s, written ++ solution, [])
        else
          let (r, _, sds) ← alloc_write_output_fds sendmsg s
          if r = OP_ERROR then Except.ok (OP_ERROR, s, written ++ solution, sds)
          else Except.ok (OP_SUCCESS, s, written ++ solution, sds)
      else Except.ok (OP_SUCCESS, s, written, [])

/-- Model of `point_io_direction`. -/
def point_io_direction (current_direction : Int) (s : State) : State :=
  if current_direction = STDIN_FILENO ∧ s.self_node.sgsh_out ≠ 0 then
    { s with self_dispatcher := { s.self_dispatcher with fd_direction := STDOUT_FILENO } }
  else if current_direction = STDOUT_FILENO ∧ s.self_node.sgsh_in ≠ 0 then
    { s with self_dispatcher := { s.self_dispatcher with fd_direction := STDIN_FILENO } }
  else s

/-- Model of `check_read`. -/
def check_read (bytes_read buf_size expected_read_size : Int) : Run Int :=
  if bytes_read ≠ expected_read_size then Except.error Fault.exited
  else if bytes_read > buf_size then Except.error Fault.exited
  else Except.ok OP_SUCCESS

/-- Model of `try_read_chunk` with `call_read`.  Both descriptors are polled
until a call of `read` does not report `EAGAIN`; `input` lists what those
calls do, and polling an empty list never ends.  The result carries the
return code, `*bytes_read`, the content of the buffer when it holds one whole
chunk, `*stdin_side` (1 when the bytes came from standard input, 0 when they
came from standard output) and the rest of the input.  A chunk longer than
the buffer is cut by `read`. -/
def try_read_chunk (sz : sizes) (buf_size : Int) :
    List read_event → Run (Int × Int × Option chunk × Int × List read_event)
  | [] => Except.error Fault.blocked
  | read_event.failure _ _ :: _ => Except.error Fault.exited
  | read_event.data on_stdin c :: rest =>
      let stdin_side : Int := if on_stdin then 1 else 0
      if c.size sz ≤ buf_size then Except.ok (OP_SUCCESS, c.size sz, some c, stdin_side, rest)
      else Except.ok (OP_SUCCESS, buf_size, none, stdin_side, rest)

/-- Model of `alloc_copy_mb`: the bytes read become the header of the fresh
block. -/
def alloc_copy_mb (sz : sizes) (content : Option chunk) (bytes_read buf_size : Int) :
    Run (Int × mb_header) := do
  let expected_read_size := sz.negotiation
  let _ ← check_read bytes_read buf_size expected_read_size
  match content with
  | some (chunk.negotiation h) => Except.ok (OP_SUCCESS, h)
  | _ => Except.error Fault.reinterpreted

/-- Model of `alloc_copy_nodes`: the bytes read become the node array of the
fresh block. -/
def alloc_copy_nodes (sz : sizes) (mb : mb_header) (content : Option chunk)
    (bytes_read buf_size : Int) : Run (Int × List sgsh_node) := do
  let expected_read_size := sz.node * mb.n_nodes
  let _ ← check_read bytes_read buf_size expected_read_size
  match content with
  | some (chunk.nodes a) => Except.ok (OP_SUCCESS, a)
  | _ => Except.error Fault.reinterpreted

/-- Model of `alloc_copy_edges`: the bytes read become the edge array of the
fresh block. -/
def alloc_copy_edges (sz : sizes) (mb : mb_header) (content : Option chunk)
    (bytes_read buf_size : Int) : Run (Int × List sgsh_edge) := do
  let expected_read_size := sz.edge * mb.n_edges
  let _ ← check_read bytes_read buf_size expected_read_size
  match content with
  | some (chunk.edges a) => Except.ok (OP_SUCCESS, a)
  | _ => Except.error Fault.reinterpreted

/-- Model of `read_input_fds`. -/
def read_input_fds : Int := OP_SUCCESS

/-- The two statements of `read_graph_solution` that fill one edge array of a
record with `n` edges: `alloc_node_connections` allocates room for `n` edges
and `memcpy` then copies `buf_size` bytes, the whole buffer, into it. -/
def read_graph_solution_copy (sz : sizes) (buf_size n : Int) (content : Option chunk) :
    Run (List sgsh_edge) :=
  if buf_size > sz.edge * n then Except.error Fault.undefined
  else
    match content with
    | some (chunk.edges a) =>
        if sz.edge * a.length = buf_size ∧ (a.length : Int) = n then Except.ok a
        else Except.error Fault.reinterpreted
    | _ => Except.error Fault.reinterpreted

/-- The loop of `read_graph_solution` over the records received; `acc` holds
the records completed so far.  The expected sizes are computed with
`sizeof(int)`. -/
def read_graph_solution_loop (sz : sizes) (buf_size : Int) :
    List node_connections_header → List sgsh_node_connections → List read_event →
    Run (Int × List sgsh_node_connections × List read_event)
  | [], acc, input => Except.ok (OP_SUCCESS, acc, input)
  | h :: hs, acc, input => do
      let in_edges_size := sz.c_int * h.n_edges_incoming
      let out_edges_size := sz.c_int * h.n_edges_outgoing
      if in_edges_size > buf_size ∨ out_edges_size > buf_size then Except.error Fault.exited
      else
        let (_, bytes_read, content, _, input) ← try_read_chunk sz buf_size input
        if in_edges_size ≠ bytes_read then Except.ok (OP_ERROR, acc, input)
        else
          let edges_incoming ← read_graph_solution_copy sz buf_size h.n_edges_incoming content
          let (_, bytes_read, content, _, input) ← try_read_chunk sz buf_size input
          if out_edges_size ≠ bytes_read then Except.ok (OP_ERROR, acc, input)
          else
            let edges_outgoing ←
              read_graph_solution_copy sz buf_size h.n_edges_outgoing content
            read_graph_solution_loop sz buf_size hs
              (acc ++ [{ node_index := h.node_index, edges_incoming := edges_incoming,
                         edges_outgoing := edges_outgoing }]) input

/-- Model of `read_graph_solution`; `n_nodes` is `fresh_mb->n_nodes`.  The
result carries the return code, the state with the records completed in
`graph_solution`, and the rest of the input.  The loop runs over the records
received, of which there are `n_nodes` when the size check has passed. -/
def read_graph_solution (sz : sizes) (buf_size n_nodes : Int) (s : State)
    (input : List read_event) : Run (Int × State × List read_event) := do
  let graph_solution_size := sz.node_connections * n_nodes
  if graph_solution_size > buf_size then Except.error Fault.exited
  else
    let (_, bytes_read, content, _, input) ← try_read_chunk sz buf_size input
    if graph_solution_size ≠ bytes_read then
      Except.ok (OP_ERROR, { s with graph_solution := [] }, input)
    else
      match content with
      | some (chunk.node_connections hs) =>
          let (r, records, input) ← read_graph_solution_loop sz buf_size hs [] input
          Except.ok (r, { s with graph_solution := records }, input)
      | _ => Except.error Fault.reinterpreted

/-- Model of `try_read_message_block`.  `chosen_mb_is_null` tells that the
pointer `chosen_mb` is NULL, as it is when a tool that did not create a block
reads for the first time; the block in `s` is then not looked at.  The result
carries the return code, the fresh block, the state and the rest of the
input.  What follows the node array is decided on the state flag of the block
held, `chosen_mb->state_flag`. -/
def try_read_message_block (P : prot_state) (sz : sizes) (buf_size : Int)
    (chosen_mb_is_null : Bool) (s : State) (input : List read_event) :
    Run (Int × fresh_block × State × List read_event) := do
  let (_, bytes_read, content, stdin_side, input) ← try_read_chunk sz buf_size input
  let (_, header) ← alloc_copy_mb sz content bytes_read buf_size
  let s := point_io_direction stdin_side s
  let (_, bytes_read, content, _, input) ← try_read_chunk sz buf_size input
  let (_, node_array) ← alloc_copy_nodes sz header content bytes_read buf_size
  let fresh_mb : fresh_block :=
    { header := header, node_array := node_array, edge_array := none }
  if chosen_mb_is_null then Except.error Fault.undefined
  else if s.chosen_mb.state_flag = P.NEGOTIATION then
    let (_, bytes_read, content, _, input) ← try_read_chunk sz buf_size input
    let (_, edge_array) ← alloc_copy_edges sz header content bytes_read buf_size
    Except.ok (OP_SUCCESS, { fresh_mb with edge_array := some edge_array }, s, input)
  else if s.chosen_mb.state_flag = P.SOLUTION_SHARE then
    let (r, s, input) ← read_graph_solution sz buf_size header.n_nodes s input
    if r = OP_ERROR then Except.ok (OP_ERROR, fresh_mb, s, input)
    else if read_input_fds = OP_ERROR then Except.ok (OP_ERROR, fresh_mb, s, input)
    else Except.ok (OP_SUCCESS, fresh_mb, s, input)
  else Except.ok (OP_SUCCESS, fresh_mb, s, input)

/-- The statements of the main loop of `sgsh_negotiate` from its head to the
point where the block is about to be transmitted: `check_negotiation_round`,
and, in state `PROT_STATE_NEGOTIATION_END`, `solve_sgsh_graph` followed by
the change of state.  The result tells whether `goto exit` was taken, and
carries `negotiation_round` and the state. -/
def sgsh_negotiate_solve_stage (P : prot_state) (locals : Nat → solve_locals)
    (negotiation_round : Int) (s : State) : Run (Bool × Int × State) := do
  let (negotiation_round, s) := check_negotiation_round P negotiation_round s
  if s.chosen_mb.state_flag = P.NEGOTIATION_END then
    let (r, s) ← solve_sgsh_graph locals s
    if r = OP_ERROR then
      let s := { s with chosen_mb := { s.chosen_mb with state_flag := P.ERROR } }
      Except.ok (true, negotiation_round, s)
    else
      let s := { s with chosen_mb := { s.chosen_mb with state_flag := P.SOLUTION_SHARE } }
      Except.ok (false, negotiation_round, s)
  else Except.ok (false, negotiation_round, s)

/-- The statements of `sgsh_negotiate` after the label `exit`: the block is
released and its state flag returned. -/
def sgsh_negotiate_exit (s : State) : Int := s.chosen_mb.state_flag

/-! ## Notions used in the statements and proofs -/

/-- No two entries of an edge array share both `from` and `to`. -/
def edges_unique (edge_array : List sgsh_edge) : Prop :=
  edge_array.Pairwise (fun a b => ¬ (a.from_ = b.from_ ∧ a.to_ = b.to_))

instance (edge_array : List sgsh_edge) : Decidable (edges_unique edge_array) := by
  unfold edges_unique
  infer_instance

/-- Peer constraints of the edges of one side, read in edge-list order. -/
def edge_constraints (node_array : List sgsh_node) (is_edge_incoming : Int) :
    List sgsh_edge → Run (List Int)
  | [] => Except.ok []
  | e :: es => do
      let c ← edge_constraint node_array is_edge_incoming e
      let cs ← edge_constraints node_array is_edge_incoming es
      Except.ok (c :: cs)

/-- Sum of the fixed peer constraints of a side (those that are not -1). -/
def fixed_total : List Int → Int
  | [] => 0
  | c :: cs => if c = -1 then fixed_total cs else c + fixed_total cs

/-- Number of flexible peers of a side (constraint -1). -/
def unlimited_count : List Int → Int
  | [] => 0
  | c :: cs => if c = -1 then unlimited_count cs + 1 else unlimited_count cs

/-- Instances handed to the edges of a side whose peer constraints are `cs`,
when every flexible edge receives `each` and the first `rem` flexible edges
one more; a fixed edge receives its peer constraint. -/
def shares (each : Int) : Int → List Int → List Int
  | _, [] => []
  | rem, c :: cs =>
      if c = -1 then
        if rem > 0 then (each + 1) :: shares each (rem - 1) cs
        else each :: shares each rem cs
      else c :: shares each rem cs

/-- The edges `es` with the given instance counts written to them, in order. -/
def with_instances (es : List sgsh_edge) (is : List Int) : List sgsh_edge :=
  List.zipWith (fun e i => { e with instances := i }) es is

/-- The two ends of every edge that satisfies `good` agree in a solution: the
instances stored for an edge u -> v in the outgoing record of node u (the
record at position u) equal those stored for it in the incoming record of
node v. -/
def ends_agree_on (good : sgsh_edge → Prop) (graph_solution : List sgsh_node_connections) :
    Prop :=
  ∀ (u v : Nat) (ru rv : sgsh_node_connections),
    graph_solution[u]? = some ru → graph_solution[v]? = some rv →
    ∀ eo ∈ ru.edges_outgoing, ∀ ei ∈ rv.edges_incoming,
      eo.from_ = u → eo.to_ = v → ei.from_ = u → ei.to_ = v → good eo →
      eo.instances = ei.instances

/-- The node an edge leaves declares a fixed output capacity, and the node it
enters declares the same number as its input capacity. -/
def fixed_equal_capacities (node_array : List sgsh_node) (e : sgsh_edge) : Prop :=
  ∃ c : Int, c ≠ -1 ∧ edge_constraint node_array 1 e = Except.ok c ∧
    edge_constraint node_array 0 e = Except.ok c

/-- Every edge of a block has both endpoints among the indices of its
nodes. -/
def endpoints_in_range (mb : sgsh_negotiation) : Prop :=
  ∀ e ∈ mb.edge_array, (0 ≤ e.from_ ∧ e.from_ < mb.n_nodes) ∧ (0 ≤ e.to_ ∧ e.to_ < mb.n_nodes)

instance (mb : sgsh_negotiation) : Decidable (endpoints_in_range mb) := by
  unfold endpoints_in_range
  infer_instance

/-! ## Concrete scenarios -/

/-- A node record with the given pid, index and capacities, sgsh-active on
both sides. -/
def mk_node (pid index requires_channels provides_channels : Int) : sgsh_node :=
  { pid := pid, index := index, name := "tool",
    requires_channels := requires_channels, provides_channels := provides_channels,
    sgsh_in := 1, sgsh_out := 1 }

/-- A message block with the given lists, initiator, serial number and
dispatcher tag (version 1, state flag 0). -/
def mk_block (node_array : List sgsh_node) (edge_array : List sgsh_edge)
    (initiator_pid serial_no : Int) (origin : dispatcher_node) : sgsh_negotiation :=
  { version := 1, node_array := node_array, edge_array := edge_array,
    initiator_pid := initiator_pid, state_flag := 0, serial_no := serial_no, origin := origin }

/-- A session state: the block held, this tool's node and its dispatcher
record; no solution yet. -/
def mk_state (chosen_mb : sgsh_negotiation) (self_node : sgsh_node)
    (self_dispatcher : dispatcher_node) : State :=
  { chosen_mb := chosen_mb, mb_is_updated := 0, self_node := self_node,
    self_dispatcher := self_dispatcher, graph_solution := [] }

/-- An edge record with arbitrary content, standing for what an
uninitialised local may hold. -/
def junk_edge : sgsh_edge := { from_ := 7, to_ := 9, instances := 13 }

/-- Scenario S4 seen from the tool with pid 200: it holds the block it
created itself (initiator 200), in which it is node 0. -/
def s4_held : State :=
  mk_state (mk_block [mk_node 200 0 1 1] [] 200 1 { index := 0, fd_direction := STDOUT_FILENO })
    (mk_node 200 0 1 1) { index := 0, fd_direction := STDOUT_FILENO }

/-- Scenario S4: the block created by the tool with pid 100, as it arrives
from that tool's standard output. -/
def s4_fresh : sgsh_negotiation :=
  mk_block [mk_node 100 0 1 1] [] 100 1 { index := 0, fd_direction := STDOUT_FILENO }

/-- Scenario S4 at the tool with pid 200 after the arrival: the block of
initiator 100 is held, extended by this tool's node and the edge 0 -> 1. -/
def s4_after : State :=
  { chosen_mb :=
      mk_block [mk_node 100 0 1 1, mk_node 200 0 1 1]
        [{ from_ := 0, to_ := 1, instances := 13 }] 100 3
        { index := 0, fd_direction := STDOUT_FILENO }
    mb_is_updated := 1
    self_node := mk_node 200 1 1 1
    self_dispatcher := { index := 1, fd_direction := STDOUT_FILENO }
    graph_solution := [] }

/-- The tool with pid 100 of scenario S4, holding its own block with both
nodes and the edge 0 -> 1 registered. -/
def s4_initiator : State :=
  mk_state
    (mk_block [mk_node 100 0 1 1, mk_node 200 1 1 1] [{ from_ := 0, to_ := 1, instances := 0 }]
      100 3 { index := 0, fd_direction := STDOUT_FILENO })
    (mk_node 100 0 1 1) { index := 0, fd_direction := STDOUT_FILENO }

/-- The block of initiator 200, arriving at the tool with pid 100. -/
def s4_foreign : sgsh_negotiation :=
  mk_block [mk_node 200 0 1 1] [] 200 1 { index := 0, fd_direction := STDIN_FILENO }

/-- The block of initiator 100 coming around to its initiator with a higher
serial number: a third node and the edge 1 -> 2 were registered on the way,
and node 2 forwarded it through its standard input. -/
def s4_newer : sgsh_negotiation :=
  mk_block [mk_node 100 0 1 1, mk_node 200 1 1 1, mk_node 300 2 1 1]
    [{ from_ := 0, to_ := 1, instances := 0 }, { from_ := 1, to_ := 2, instances := 0 }]
    100 5 { index := 2, fd_direction := STDIN_FILENO }

/-- The initiator of scenario S4 holding the block that came back to it. -/
def s4_returned : State :=
  mk_state s4_newer (mk_node 100 0 1 1) { index := 0, fd_direction := STDOUT_FILENO }

/-- The state of `s4_returned` after the edge 0 -> 2 has been registered. -/
def s4_registered : State :=
  { chosen_mb :=
      mk_block [mk_node 100 0 1 1, mk_node 200 1 1 1, mk_node 300 2 1 1]
        [{ from_ := 0, to_ := 1, instances := 0 }, { from_ := 1, to_ := 2, instances := 0 },
         { from_ := 0, to_ := 2, instances := 13 }]
        100 6 { index := 2, fd_direction := STDIN_FILENO }
    mb_is_updated := 1
    self_node := mk_node 100 0 1 1
    self_dispatcher := { index := 0, fd_direction := STDOUT_FILENO }
    graph_solution := [] }

/-- Scenario S3: provider A (node 0, provides 2) and consumers B (node 1,
requires 2) and C (node 2, requires 1). -/
def s3_nodes : List sgsh_node :=
  [mk_node 100 0 0 2, mk_node 101 1 2 0, mk_node 102 2 1 0]

/-- Scenario S3: the outgoing edges of A, to B and to C. -/
def s3_edges : List sgsh_edge :=
  [{ from_ := 0, to_ := 1, instances := 0 }, { from_ := 0, to_ := 2, instances := 0 }]

/-- Scenario S5: provider A (node 0, provides 7) and consumers B, C, D
(nodes 1, 2, 3) that accept any number of channels. -/
def s5_nodes : List sgsh_node :=
  [mk_node 100 0 0 7, mk_node 101 1 (-1) 0, mk_node 102 2 (-1) 0, mk_node 103 3 (-1) 0]

/-- Scenario S5: the outgoing edges of A in the order B, C, D. -/
def s5_edges : List sgsh_edge :=
  [{ from_ := 0, to_ := 1, instances := 0 }, { from_ := 0, to_ := 2, instances := 0 },
   { from_ := 0, to_ := 3, instances := 0 }]

/-- Scenario S5: the edges of A with the instances 3, 2, 2. -/
def s5_solved : List sgsh_edge :=
  [{ from_ := 0, to_ := 1, instances := 3 }, { from_ := 0, to_ := 2, instances := 2 },
   { from_ := 0, to_ := 3, instances := 2 }]

/-- Scenario S2: provider A (node 0, unlimited output) and consumers B and C
(nodes 1 and 2) that require one channel each. -/
def s2_nodes : List sgsh_node :=
  [mk_node 100 0 0 (-1), mk_node 101 1 1 0, mk_node 102 2 1 0]

/-- Scenario S2: the outgoing edges of A. -/
def s2_edges : List sgsh_edge :=
  [{ from_ := 0, to_ := 1, instances := 0 }, { from_ := 0, to_ := 2, instances := 0 }]

/-- Scenario S2: the edges of A with one instance each. -/
def s2_solved : List sgsh_edge :=
  [{ from_ := 0, to_ := 1, instances := 1 }, { from_ := 0, to_ := 2, instances := 1 }]

/-- The contents of unset storage with which the loop of `solve_sgsh_graph`
runs as it is written to run: each of the two pointer variables holds the
address of a null pointer, and every counter and accumulator read before it
is written holds 0. -/
def zero_locals : Nat → solve_locals :=
  fun _ => { node_index := 0
             edges_incoming := unset_pointer.null_array
             n_edges_incoming := 0
             edges_outgoing := unset_pointer.null_array
             n_edges_outgoing := 0
             outgoing := { total_edge_constraints := 0, instances := 0 }
             incoming := { total_edge_constraints := 0, instances := 0 } }

/-- A frozen graph of two tools connected in both directions: node 0 accepts
and offers any number of channels, node 1 accepts any number and offers 2. -/
def ring_block : sgsh_negotiation :=
  mk_block [mk_node 100 0 (-1) (-1), mk_node 101 1 (-1) 2]
    [{ from_ := 0, to_ := 1, instances := 0 }, { from_ := 1, to_ := 0, instances := 0 }]
    100 5 { index := 1, fd_direction := STDOUT_FILENO }

/-- The graph `ring_block` as held by the tool that is its node 0. -/
def ring_at_0 : State :=
  mk_state ring_block (mk_node 100 0 (-1) (-1)) { index := 0, fd_direction := STDOUT_FILENO }

/-- The graph `ring_block` as held by the tool that is its node 1. -/
def ring_at_1 : State :=
  mk_state ring_block (mk_node 101 1 (-1) 2) { index := 1, fd_direction := STDOUT_FILENO }

/-- A frozen graph of two tools that each require one channel and provide
one, connected in both directions, held by the tool that is node 0. -/
def pair_at_0 : State :=
  mk_state
    (mk_block [mk_node 100 0 1 1, mk_node 101 1 1 1]
      [{ from_ := 0, to_ := 1, instances := 0 }, { from_ := 1, to_ := 0, instances := 0 }]
      100 5 { index := 1, fd_direction := STDOUT_FILENO })
    (mk_node 100 0 1 1) { index := 0, fd_direction := STDOUT_FILENO }

/-- The state `pair_at_0` after `solve_sgsh_graph`: every edge carries one
instance, in the block and in both records of the solution. -/
def pair_solved : State :=
  { chosen_mb :=
      mk_block [mk_node 100 0 1 1, mk_node 101 1 1 1]
        [{ from_ := 0, to_ := 1, instances := 1 }, { from_ := 1, to_ := 0, instances := 1 }]
        100 5 { index := 1, fd_direction := STDOUT_FILENO }
    mb_is_updated := 0
    self_node := mk_node 100 0 1 1
    self_dispatcher := { index := 0, fd_direction := STDOUT_FILENO }
    graph_solution :=
      [{ node_index := 0
         edges_incoming := [{ from_ := 1, to_ := 0, instances := 1 }]
         edges_outgoing := [{ from_ := 0, to_ := 1, instances := 1 }] },
       { node_index := 0
         edges_incoming := [{ from_ := 0, to_ := 1, instances := 1 }]
         edges_outgoing := [{ from_ := 1, to_ := 0, instances := 1 }] }] }

/-- The solution computed for `ring_block` by the tool that is node 0. -/
def ring_solution_at_0 : List sgsh_node_connections :=
  [{ node_index := 0
     edges_incoming := [{ from_ := 1, to_ := 0, instances := 2 }]
     edges_outgoing := [{ from_ := 0, to_ := 1, instances := 5 }] },
   { node_index := 0
     edges_incoming := [{ from_ := 0, to_ := 1, instances := 5 }]
     edges_outgoing := [{ from_ := 1, to_ := 0, instances := 5 }] }]

/-- The solution computed for `ring_block` by the tool that is node 1. -/
def ring_solution_at_1 : List sgsh_node_connections :=
  [{ node_index := 0
     edges_incoming := [{ from_ := 1, to_ := 0, instances := 2 }]
     edges_outgoing := [{ from_ := 0, to_ := 1, instances := 2 }] },
   { node_index := 0
     edges_incoming := [{ from_ := 0, to_ := 1, instances := 5 }]
     edges_outgoing := [{ from_ := 1, to_ := 0, instances := 2 }] }]

/-- A block of two nodes and the edge 0 -> 1 whose dispatcher tag names node
5, which the block does not have, and standard input as the side used; it is
held by the tool that is node 1. -/
def far_dispatcher : State :=
  mk_state
    (mk_block [mk_node 100 0 1 1, mk_node 200 1 1 1] [{ from_ := 0, to_ := 1, instances := 0 }]
      100 3 { index := 5, fd_direction := STDIN_FILENO })
    (mk_node 200 1 1 1) { index := 1, fd_direction := STDOUT_FILENO }

/-- The state `far_dispatcher` after `try_add_sgsh_edge`: the edge 1 -> 5 has
been appended. -/
def far_registered : State :=
  { chosen_mb :=
      mk_block [mk_node 100 0 1 1, mk_node 200 1 1 1]
        [{ from_ := 0, to_ := 1, instances := 0 }, { from_ := 1, to_ := 5, instances := 13 }]
        100 4 { index := 5, fd_direction := STDIN_FILENO }
    mb_is_updated := 1
    self_node := mk_node 200 1 1 1
    self_dispatcher := { index := 1, fd_direction := STDOUT_FILENO }
    graph_solution := [] }

/-- The block of `far_dispatcher` with a dispatcher tag that names node 2,
the first index the block does not have. -/
def next_dispatcher : State :=
  mk_state
    (mk_block [mk_node 100 0 1 1, mk_node 200 1 1 1] [{ from_ := 0, to_ := 1, instances := 0 }]
      100 3 { index := 2, fd_direction := STDIN_FILENO })
    (mk_node 200 1 1 1) { index := 1, fd_direction := STDOUT_FILENO }

/-- Values for the state constants, used in the concrete scenarios. -/
def prot_values : prot_state :=
  { NEGOTIATION := 0, NEGOTIATION_END := 1, SOLUTION_SHARE := 2, ERROR := 3 }

/-- The sizes of the five types on a platform with 4-byte `int` and `pid_t`
and 8-byte pointers and `double`. -/
def lp64 : sizes :=
  { negotiation := 56, node := 124, edge := 12, node_connections := 40, c_int := 4 }

/-- The tool with pid 200 of scenario S4 right after it has adopted the block
of initiator 100 and before it has registered itself. -/
def s4_adopted : State :=
  mk_state s4_fresh (mk_node 200 0 1 1) { index := 0, fd_direction := STDOUT_FILENO }

/-- The state `s4_adopted` after `try_add_sgsh_node`. -/
def s4_joined : State :=
  { chosen_mb :=
      mk_block [mk_node 100 0 1 1, mk_node 200 0 1 1] [] 100 2
        { index := 0, fd_direction := STDOUT_FILENO }
    mb_is_updated := 1
    self_node := mk_node 200 1 1 1
    self_dispatcher := { index := 1, fd_direction := STDOUT_FILENO }
    graph_solution := [] }

/-- The tool with pid 200 of scenario S4, which is not the initiator, holding
the block of initiator 100 in the negotiation state with the modified flag
clear. -/
def idle_follower : State := { s4_after with mb_is_updated := 0 }

/-- A tool that is node 0 of two and whose solution record holds one outgoing
edge with three instances. -/
def sender_state : State :=
  { pair_solved with
    graph_solution :=
      [{ node_index := 0
         edges_incoming := [{ from_ := 1, to_ := 0, instances := 1 }]
         edges_outgoing := [{ from_ := 0, to_ := 1, instances := 3 }] },
       { node_index := 1
         edges_incoming := [{ from_ := 0, to_ := 1, instances := 3 }]
         edges_outgoing := [{ from_ := 1, to_ := 0, instances := 1 }] }] }

/-- Scenario S3 at tool A (node 0, provides 2) once the negotiation has
ended: B requires 2 and C requires 1, and both are fed by A. -/
def s3_ended : State :=
  mk_state
    { mk_block s3_nodes s3_edges 100 7 { index := 2, fd_direction := STDOUT_FILENO } with
      state_flag := 1 }
    (mk_node 100 0 0 2) { index := 0, fd_direction := STDOUT_FILENO }

/-- The graph of `pair_at_0` once the negotiation has ended. -/
def pair_ended : State :=
  { pair_at_0 with chosen_mb := { pair_at_0.chosen_mb with state_flag := 1 } }

/-- The state `pair_solved` with the block in the solution-share state. -/
def pair_sharing : State :=
  { pair_solved with chosen_mb := { pair_solved.chosen_mb with state_flag := 2 } }

/-- The state `pair_sharing` after `write_mb`: the dispatcher tag of the
block names this tool, node 0, and its standard output. -/
def pair_sent : State :=
  { pair_sharing with chosen_mb := { pair_sharing.chosen_mb with
      origin := { index := 0, fd_direction := STDOUT_FILENO } } }

/-- The state `s4_registered` after `write_mb`: the dispatcher tag of the
block names this tool, node 0, and its standard output. -/
def s4_sent : State :=
  { s4_registered with chosen_mb := { s4_registered.chosen_mb with
      origin := { index := 0, fd_direction := STDOUT_FILENO } } }

/-- What `write_mb` hands to `write` for the block of `s4_registered`, which
is in the negotiation state: header, node array, edge array. -/
def negotiation_chunks : List chunk :=
  [chunk.negotiation s4_sent.chosen_mb.header,
   chunk.nodes s4_sent.chosen_mb.node_array,
   chunk.edges s4_sent.chosen_mb.edge_array]

/-- What `write_graph_solution` hands to `write` for the solution of
`pair_solved`: the two records, then for each node its incoming and its
outgoing edge array. -/
def solution_chunks : List chunk :=
  [chunk.node_connections
     [{ node_index := 0, n_edges_incoming := 1, n_edges_outgoing := 1 },
      { node_index := 0, n_edges_incoming := 1, n_edges_outgoing := 1 }],
   chunk.edges [{ from_ := 1, to_ := 0, instances := 1 }],
   chunk.edges [{ from_ := 0, to_ := 1, instances := 1 }],
   chunk.edges [{ from_ := 0, to_ := 1, instances := 1 }],
   chunk.edges [{ from_ := 1, to_ := 0, instances := 1 }]]

/-- What `write_mb` hands to `write` for the block of `pair_sharing`, which
is in the solution-share state: header, node array, solution. -/
def sharing_chunks : List chunk :=
  chunk.negotiation pair_sent.chosen_mb.header ::
    chunk.nodes pair_sent.chosen_mb.node_array :: solution_chunks

/-- Chunks arriving one per call of `read`, all on standard input. -/
def delivered (chunks : List chunk) : List read_event :=
  chunks.map (fun c => read_event.data true c)

/-- A solution for two nodes without any edge. -/
def empty_solution_chunks : List chunk :=
  [chunk.node_connections
     [{ node_index := 0, n_edges_incoming := 0, n_edges_outgoing := 0 },
      { node_index := 1, n_edges_incoming := 0, n_edges_outgoing := 0 }],
   chunk.edges [], chunk.edges [], chunk.edges [], chunk.edges []]

/-- Chunks arriving one per call of `read`, all on standard output. -/
def delivered_on_stdout (chunks : List chunk) : List read_event :=
  chunks.map (fun c => read_event.data false c)

/-- The tool of `s4_held` about to write on its standard input. -/
def s4_listening : State :=
  { s4_held with self_dispatcher := { index := 0, fd_direction := STDIN_FILENO } }

/-- The tool with pid 200 of scenario S4 right after `fill_sgsh_node`, holding
the block of initiator 100 that it has just read as its first block. -/
def newcomer : State :=
  fill_sgsh_node "tool" 200 1 1
    (mk_state s4_fresh (mk_node 0 0 0 0) { index := 0, fd_direction := STDIN_FILENO })

/-- The state `newcomer` after `try_add_sgsh_node`: the record appended at
position 1 carries the index -1, while `self_node` and `self_dispatcher`
carry 1. -/
def newcomer_joined : State :=
  { chosen_mb :=
      mk_block [mk_node 100 0 1 1, mk_node 200 (-1) 1 1] [] 100 2
        { index := 0, fd_direction := STDOUT_FILENO }
    mb_is_updated := 1
    self_node := mk_node 200 1 1 1
    self_dispatcher := { index := 1, fd_direction := STDIN_FILENO }
    graph_solution := [] }

/-- A block of initiator 100 with a higher serial number than the one held in
`s4_after`, listing the tools with pids 100 and 300 only; the tool with pid
300, its node 1, forwarded it through its standard output. -/
def stranger_block : sgsh_negotiation :=
  mk_block [mk_node 100 0 1 1, mk_node 300 1 1 1] [{ from_ := 0, to_ := 1, instances := 0 }]
    100 5 { index := 1, fd_direction := STDOUT_FILENO }

/-- A chain of three tools seen from the middle one (pid 200, node 1), which
holds the block as it received it from node 0 and is about to forward it
through its standard output. -/
def middle_ready : State :=
  mk_state
    (mk_block [mk_node 100 0 0 1, mk_node 200 1 1 1, mk_node 300 2 1 0]
      [{ from_ := 0, to_ := 1, instances := 0 }, { from_ := 1, to_ := 2, instances := 0 }]
      100 5 { index := 0, fd_direction := STDOUT_FILENO })
    (mk_node 200 1 1 1) { index := 1, fd_direction := STDOUT_FILENO }

/-- The state `middle_ready` after `write_mb`: the dispatcher tag of the block
held names this tool, node 1, and its standard output. -/
def middle_sent : State :=
  { middle_ready with chosen_mb := { middle_ready.chosen_mb with
      origin := { index := 1, fd_direction := STDOUT_FILENO } } }

/-- The block of `middle_sent` as node 2 sends it back unchanged through its
standard input: same serial number, dispatcher tag naming node 2. -/
def middle_echo : sgsh_negotiation :=
  { middle_sent.chosen_mb with origin := { index := 2, fd_direction := STDIN_FILENO } }

/-- The edge list of `middle_sent` followed by an edge from node 1 to node 1. -/
def middle_looped : List sgsh_edge :=
  [{ from_ := 0, to_ := 1, instances := 0 }, { from_ := 1, to_ := 2, instances := 0 },
   { from_ := 1, to_ := 1, instances := 13 }]

/-- Provider A (node 0, provides 3) and its only consumer B (node 1), which
requires one channel. -/
def wide_nodes : List sgsh_node := [mk_node 100 0 0 3, mk_node 101 1 1 0]

/-- The outgoing edge of A in `wide_nodes`. -/
def wide_edges : List sgsh_edge := [{ from_ := 0, to_ := 1, instances := 0 }]

/-- What the uninitialised locals of `satisfy_io_constraints` hold when both
are found at 0. -/
def zero_io_locals : io_locals := { total_edge_constraints := 0, instances := 0 }

/-- Scenario S4 seen from the tool with pid 100 before any contact: it holds
the block it created itself and has sent, in which it is the only node. -/
def s4_alone : State :=
  mk_state s4_fresh (mk_node 100 0 1 1) { index := 0, fd_direction := STDOUT_FILENO }

/-! ## Auxiliary facts about the embedding -/

/-- What `try_add_sgsh_edge` can do when it returns: nothing (`OP_NOOP`,
`OP_EXISTS`) or append one edge with endpoints unknown to the block, raise
`serial_no` by one and set `mb_is_updated`. -/
theorem try_add_sgsh_edge_cases (g : sgsh_edge) (s s' : State) (r : Int)
    (h : try_add_sgsh_edge g s = Except.ok (r, s')) :
    (r = OP_NOOP ∧ s' = s) ∨ (r = OP_EXISTS ∧ s' = s) ∨
    (r = OP_SUCCESS ∧ ∃ e : sgsh_edge, lookup_sgsh_edge s e = OP_CREATE ∧
      s' = { s with
        chosen_mb := { s.chosen_mb with
          edge_array := s.chosen_mb.edge_array ++ [e]
          serial_no := s.chosen_mb.serial_no + 1 }
        mb_is_updated := 1 }) := by
  unfold try_add_sgsh_edge at h
  split at h
  · cases hf : fill_sgsh_edge s g with
    | error f => rw [hf] at h; simp [bind, Except.bind] at h
    | ok v =>
      obtain ⟨c, e⟩ := v
      rw [hf] at h
      simp only [bind, Except.bind, add_edge] at h
      split at h
      · simp [OP_SUCCESS, OP_ERROR] at h
        right; right
        refine ⟨h.1.symm ▸ rfl, e, ?_, h.2.symm⟩
        assumption
      · simp at h
        right; left
        exact ⟨h.1.symm, h.2.symm⟩
  · simp at h
    left
    exact ⟨h.1.symm, h.2.symm⟩

/-- What `try_add_sgsh_node` does: it always returns, with `OP_EXISTS` and
the state untouched when a node of the block has this tool's pid, and
otherwise with `OP_SUCCESS` after appending `self_node`. -/
theorem try_add_sgsh_node_eq (s : State) :
    try_add_sgsh_node s =
      if s.chosen_mb.node_array.any (fun nd => nd.pid == s.self_node.pid) then
        Except.ok (OP_EXISTS, s)
      else
        Except.ok (OP_SUCCESS,
          { s with
            chosen_mb := { s.chosen_mb with
              node_array := s.chosen_mb.node_array ++ [s.self_node]
              serial_no := s.chosen_mb.serial_no + 1 }
            self_dispatcher := { s.self_dispatcher with index := s.chosen_mb.n_nodes }
            self_node := { s.self_node with index := s.chosen_mb.n_nodes }
            mb_is_updated := 1 }) := by
  unfold try_add_sgsh_node
  split
  · rfl
  · simp [add_node, bind, Except.bind, OP_SUCCESS, OP_ERROR]

/-- Neither registry operation touches `initiator_pid`. -/
theorem try_add_sgsh_edge_initiator (g : sgsh_edge) (s s' : State) (r : Int)
    (h : try_add_sgsh_edge g s = Except.ok (r, s')) :
    s'.chosen_mb.initiator_pid = s.chosen_mb.initiator_pid := by
  rcases try_add_sgsh_edge_cases g s s' r h with h | h | ⟨_, e, _, h⟩
  · rw [h.2]
  · rw [h.2]
  · rw [h]

/-- The node registry leaves `initiator_pid` alone. -/
theorem try_add_sgsh_node_initiator (s s' : State) (r : Int)
    (h : try_add_sgsh_node s = Except.ok (r, s')) :
    s'.chosen_mb.initiator_pid = s.chosen_mb.initiator_pid := by
  rw [try_add_sgsh_node_eq] at h
  split at h <;> simp at h <;> rw [← h.2]

/-- The code returned by `try_add_sgsh_edge` is never `OP_ERROR`. -/
theorem try_add_sgsh_edge_ne_error (g : sgsh_edge) (s s' : State) (r : Int)
    (h : try_add_sgsh_edge g s = Except.ok (r, s')) : r ≠ OP_ERROR := by
  rcases try_add_sgsh_edge_cases g s s' r h with h | h | h <;> rw [h.1] <;> decide

/-- The three ways in which `compete_message_block` returns. -/
theorem compete_message_block_cases (g : sgsh_edge) (F : sgsh_negotiation) (s s' : State)
    (r t : Int) (h : compete_message_block g F s = Except.ok (r, t, s')) :
    (F.initiator_pid < s.chosen_mb.initiator_pid ∧ r = OP_SUCCESS ∧ t = 1 ∧
      ∃ r1 s1 r2 s2,
        try_add_sgsh_node { s with mb_is_updated := 0, chosen_mb := F } = Except.ok (r1, s1) ∧
        try_add_sgsh_edge g s1 = Except.ok (r2, s2) ∧
        s' = { s2 with mb_is_updated := 1 }) ∨
    (s.chosen_mb.initiator_pid < F.initiator_pid ∧ r = OP_SUCCESS ∧ t = 0 ∧
      s' = { s with mb_is_updated := 0 }) ∨
    (F.initiator_pid = s.chosen_mb.initiator_pid ∧ r = OP_SUCCESS ∧ t = 1 ∧
      ∃ r2,
        try_add_sgsh_edge g
          (if F.serial_no > s.chosen_mb.serial_no then
            { s with mb_is_updated := 1, chosen_mb := F }
           else { s with mb_is_updated := 0 }) = Except.ok (r2, s')) := by
  unfold compete_message_block at h
  simp only [] at h
  split at h
  · next hlt =>
    left
    refine ⟨hlt, ?_⟩
    cases hn : try_add_sgsh_node { s with mb_is_updated := 0, chosen_mb := F } with
    | error f => rw [hn] at h; simp [bind, Except.bind] at h
    | ok v1 =>
      obtain ⟨r1, s1⟩ := v1
      rw [hn] at h
      simp only [bind, Except.bind] at h
      have hr1 : r1 ≠ OP_ERROR := by
        rw [try_add_sgsh_node_eq] at hn
        split at hn <;> simp at hn <;> rw [← hn.1] <;> decide
      rw [if_neg hr1] at h
      cases he : try_add_sgsh_edge g s1 with
      | error f => rw [he] at h; simp at h
      | ok v2 =>
        obtain ⟨r2, s2⟩ := v2
        rw [he] at h
        have hr2 := try_add_sgsh_edge_ne_error g s1 s2 r2 he
        simp only [if_neg hr2] at h
        simp at h
        exact ⟨h.1.symm, h.2.1.symm, r1, s1, r2, s2, rfl, he, h.2.2.symm⟩
  · next hge =>
    right
    split at h
    · next hgt =>
      left
      simp at h
      exact ⟨hgt, h.1.symm, h.2.1.symm, h.2.2.symm⟩
    · next hle =>
      right
      have heq : F.initiator_pid = s.chosen_mb.initiator_pid := by
        simp only [gt_iff_lt, not_lt] at hge hle
        exact le_antisymm hle hge
      refine ⟨heq, ?_⟩
      generalize hs0 : (if F.serial_no > s.chosen_mb.serial_no then
            ({ s with mb_is_updated := 1, chosen_mb := F } : State)
           else { s with mb_is_updated := 0 }) = s0 at h
      cases he : try_add_sgsh_edge g s0 with
      | error f => rw [he] at h; simp [bind, Except.bind] at h
      | ok v2 =>
        obtain ⟨r2, s2⟩ := v2
        rw [he] at h
        have hr2 := try_add_sgsh_edge_ne_error g s0 s2 r2 he
        simp only [bind, Except.bind, if_neg hr2] at h
        simp at h
        refine ⟨h.1.symm, h.2.1.symm, r2, ?_⟩
        rw [← h.2.2]

/-! ## Auxiliary facts about the solver -/

/-- The constraint list has one entry per edge. -/
theorem edge_constraints_length (na : List sgsh_node) (inc : Int) (es : List sgsh_edge)
    (cs : List Int) (h : edge_constraints na inc es = Except.ok cs) : cs.length = es.length := by
  induction es generalizing cs with
  | nil => simp [edge_constraints] at h; subst h; rfl
  | cons e es ih =>
    unfold edge_constraints at h
    cases hc : edge_constraint na inc e with
    | error f => rw [hc] at h; simp [bind, Except.bind] at h
    | ok c =>
      cases hcs : edge_constraints na inc es with
      | error f => rw [hc, hcs] at h; simp [bind, Except.bind] at h
      | ok cs0 =>
        rw [hc, hcs] at h
        simp [bind, Except.bind] at h
        subst h
        simp [ih cs0 hcs]

/-- The aggregation loop adds the fixed constraints to the accumulator and
counts the flexible ones. -/
theorem satisfy_io_constraints_aggregate_eq (na : List sgsh_node) (inc : Int)
    (es : List sgsh_edge) (t n : Int) :
    satisfy_io_constraints_aggregate na inc es t n =
      (match edge_constraints na inc es with
       | Except.ok cs => Except.ok (t + fixed_total cs, n + unlimited_count cs)
       | Except.error f => Except.error f) := by
  induction es generalizing t n with
  | nil => simp [satisfy_io_constraints_aggregate, edge_constraints, fixed_total, unlimited_count]
  | cons e es ih =>
    unfold satisfy_io_constraints_aggregate edge_constraints
    cases hc : edge_constraint na inc e with
    | error f => simp [bind, Except.bind]
    | ok c =>
      simp only [bind, Except.bind]
      split
      · next hne =>
        rw [ih]
        cases hcs : edge_constraints na inc es with
        | error f => rfl
        | ok cs => simp [fixed_total, unlimited_count, hne, add_assoc]
      · next heq =>
        simp only [ne_eq, not_not] at heq
        rw [ih]
        cases hcs : edge_constraints na inc es with
        | error f => rfl
        | ok cs => simp [fixed_total, unlimited_count, heq, add_assoc, add_comm]

/-- The assignment loop writes `shares` to the edges and adds them to the
channel count. -/
theorem assign_edge_instances_loop_eq (na : List sgsh_node) (inc each : Int)
    (es : List sgsh_edge) (rem cnt : Int) :
    (assign_edge_instances_loop na inc each es rem cnt).map (fun r => (r.1, r.2.2)) =
      (match edge_constraints na inc es with
       | Except.ok cs =>
           Except.ok (with_instances es (shares each rem cs), cnt + (shares each rem cs).sum)
       | Except.error f => Except.error f) := by
  induction es generalizing rem cnt with
  | nil => simp [assign_edge_instances_loop, edge_constraints, shares, with_instances, Except.map]
  | cons e es ih =>
    unfold assign_edge_instances_loop edge_constraints
    cases hc : edge_constraint na inc e with
    | error f => simp [bind, Except.bind, Except.map]
    | ok c =>
      simp only [bind, Except.bind]
      generalize hp : (if c = -1 then if rem > 0 then (each + 1, rem - 1) else (each, rem)
        else (c, rem) : Int × Int) = p
      have hsh : ∀ cs, shares each rem (c :: cs) = p.1 :: shares each p.2 cs := by
        intro cs
        rw [← hp]
        by_cases h1 : c = -1
        · by_cases h2 : rem > 0 <;> simp [shares, h1, h2]
        · simp [shares, h1]
      have ih1 := ih p.2 (cnt + p.1)
      cases hl : assign_edge_instances_loop na inc each es p.2 (cnt + p.1) with
      | error f =>
        rw [hl] at ih1
        cases hcs : edge_constraints na inc es with
        | error f2 => rw [hcs] at ih1; simpa [Except.map] using ih1
        | ok cs => rw [hcs] at ih1; simp [Except.map] at ih1
      | ok v =>
        rw [hl] at ih1
        cases hcs : edge_constraints na inc es with
        | error f2 => rw [hcs] at ih1; simp [Except.map] at ih1
        | ok cs =>
          rw [hcs] at ih1
          simp only [Except.map, Except.ok.injEq, Prod.mk.injEq] at ih1 ⊢
          rw [hsh, ih1.1, ih1.2]
          simp [with_instances, add_assoc]

/-- The assignment loop returns exactly when all peer constraints can be
read, with `shares` written to the edges and added to the channel count. -/
theorem assign_edge_instances_loop_ok (na : List sgsh_node) (inc each : Int)
    (es : List sgsh_edge) (rem cnt : Int) (cs : List Int)
    (hcs : edge_constraints na inc es = Except.ok cs) :
    ∃ rem', assign_edge_instances_loop na inc each es rem cnt =
      Except.ok (with_instances es (shares each rem cs), rem', cnt + (shares each rem cs).sum) := by
  have h := assign_edge_instances_loop_eq na inc each es rem cnt
  rw [hcs] at h
  cases hl : assign_edge_instances_loop na inc each es rem cnt with
  | error f => rw [hl] at h; simp [Except.map] at h
  | ok v =>
    obtain ⟨es', rem', cnt'⟩ := v
    rw [hl] at h
    simp only [Except.map, Except.ok.injEq, Prod.mk.injEq] at h
    exact ⟨rem', by rw [h.1, h.2]⟩

/-- Closed form of `satisfy_io_constraints`: it reads the peer constraints
`cs`, evaluates them with the accumulator started at the value found in the
uninitialised local, and, unless it reports `OP_ERROR`, writes `shares` to
the edges and checks the assertions of `assign_edge_instances` on their
sum. -/
theorem satisfy_io_constraints_eq (na : List sgsh_node) (loc : io_locals) (C : Int)
    (es : List sgsh_edge) (inc : Int) :
    satisfy_io_constraints na loc C es inc =
      (match edge_constraints na inc es with
       | Except.error f => Except.error f
       | Except.ok cs =>
         match eval_constraints C (loc.total_edge_constraints + fixed_total cs)
             (unlimited_count cs) 0 0 loc.instances with
         | Except.error f => Except.error f
         | Except.ok (r, each, rem, inst) =>
           if r = OP_ERROR then Except.ok (OP_ERROR, es)
           else if (if C = -1 then inst = (shares each rem cs).sum
                    else C = inst ∧ inst = (shares each rem cs).sum) then
             Except.ok (OP_SUCCESS, with_instances es (shares each rem cs))
           else Except.error Fault.aborted) := by
  unfold satisfy_io_constraints
  rw [satisfy_io_constraints_aggregate_eq]
  cases hcs : edge_constraints na inc es with
  | error f => simp [bind, Except.bind]
  | ok cs =>
    simp only [bind, Except.bind, zero_add]
    cases hev : eval_constraints C (loc.total_edge_constraints + fixed_total cs)
        (unlimited_count cs) 0 0 loc.instances with
    | error f => rfl
    | ok v =>
      obtain ⟨r, each, rem, inst⟩ := v
      simp only []
      split
      · rfl
      · obtain ⟨rem', hl⟩ := assign_edge_instances_loop_ok na inc each es rem 0 cs hcs
        unfold assign_edge_instances
        rw [hl]
        simp only [bind, Except.bind, zero_add]
        by_cases hC : C = -1
        · simp only [hC, if_true]
          by_cases h1 : inst = (shares each rem cs).sum
          · simp [c_assert, h1, OP_SUCCESS, OP_ERROR]
          · simp [c_assert, h1]
        · simp only [hC, if_false]
          by_cases h1 : C = inst
          · by_cases h2 : inst = (shares each rem cs).sum
            · simp [c_assert, h1, h2, OP_SUCCESS, OP_ERROR]
            · simp [c_assert, h1, h2]
          · simp [c_assert, h1]

/-- One share per peer constraint. -/
theorem shares_length (each rem : Int) (cs : List Int) :
    (shares each rem cs).length = cs.length := by
  induction cs generalizing rem with
  | nil => simp [shares]
  | cons c cs ih =>
    unfold shares
    split
    · split <;> simp [ih]
    · simp [ih]

/-- Writing instance counts changes no endpoint, and the counts can be read
back when there is one per edge. -/
theorem with_instances_spec (es : List sgsh_edge) (is : List Int) (h : is.length = es.length) :
    (with_instances es is).map (fun e => e.instances) = is ∧
    (with_instances es is).map (fun e => (e.from_, e.to_)) =
      es.map (fun e => (e.from_, e.to_)) := by
  induction es generalizing is with
  | nil =>
    cases is with
    | nil => simp [with_instances]
    | cons i is => simp at h
  | cons e es ih =>
    cases is with
    | nil => simp at h
    | cons i is =>
      simp only [List.length_cons, add_left_inj] at h
      have := ih is h
      simp only [with_instances] at this
      simp [with_instances, this.1, this.2]

/-- The count of flexible peers is not negative. -/
theorem unlimited_count_nonneg (cs : List Int) : 0 ≤ unlimited_count cs := by
  induction cs with
  | nil => simp [unlimited_count]
  | cons c cs ih =>
    unfold unlimited_count
    split <;> omega

/-- Sum of the shares when the remainder does not exceed the number of
flexible peers: the fixed constraints, `each` per flexible peer, and the
remainder. -/
theorem shares_sum (each rem : Int) (cs : List Int) (h0 : 0 ≤ rem)
    (hk : rem ≤ unlimited_count cs) :
    (shares each rem cs).sum = fixed_total cs + each * unlimited_count cs + rem := by
  induction cs generalizing rem with
  | nil =>
    simp only [unlimited_count] at hk
    have : rem = 0 := le_antisymm hk h0
    simp [shares, fixed_total, unlimited_count, this]
  | cons c cs ih =>
    have hnn := unlimited_count_nonneg cs
    by_cases hc : c = -1
    · simp only [unlimited_count, hc, if_true] at hk
      by_cases hr : rem > 0
      · have := ih (rem - 1) (by omega) (by omega)
        simp only [shares, hc, if_true, hr, List.sum_cons, this, fixed_total, unlimited_count]
        ring
      · have hz : rem = 0 := by omega
        have := ih rem h0 (by omega)
        simp only [shares, hc, if_true, hr, if_false, List.sum_cons, this, fixed_total,
          unlimited_count]
        ring
    · simp only [unlimited_count, hc, if_false] at hk
      have := ih rem h0 hk
      simp only [shares, hc, if_false, List.sum_cons, this, fixed_total, unlimited_count]
      ring

/-- The peer constraint of an edge depends on its endpoints only. -/
theorem edge_constraint_congr (na : List sgsh_node) (inc : Int) (e e' : sgsh_edge)
    (hf : e'.from_ = e.from_) (ht : e'.to_ = e.to_) :
    edge_constraint na inc e' = edge_constraint na inc e := by
  unfold edge_constraint
  rw [hf, ht]

/-- Every edge whose peer constraint is fixed is handed exactly that
constraint. -/
theorem with_instances_shares_fixed (na : List sgsh_node) (inc each : Int)
    (es : List sgsh_edge) (rem : Int) (cs : List Int)
    (hcs : edge_constraints na inc es = Except.ok cs) :
    ∀ e' ∈ with_instances es (shares each rem cs), ∀ c : Int,
      edge_constraint na inc e' = Except.ok c → c ≠ -1 → e'.instances = c := by
  induction es generalizing cs rem with
  | nil => intro e' he'; simp [with_instances] at he'
  | cons e es ih =>
    unfold edge_constraints at hcs
    cases hc : edge_constraint na inc e with
    | error f => rw [hc] at hcs; simp [bind, Except.bind] at hcs
    | ok c0 =>
      cases hcs0 : edge_constraints na inc es with
      | error f => rw [hc, hcs0] at hcs; simp [bind, Except.bind] at hcs
      | ok cs0 =>
        rw [hc, hcs0] at hcs
        simp only [bind, Except.bind, Except.ok.injEq] at hcs
        subst hcs
        intro e' he' c hce hne
        by_cases h1 : c0 = -1
        · by_cases h2 : rem > 0
          · simp only [shares, h1, if_true, h2, with_instances, List.zipWith_cons_cons,
              List.mem_cons] at he'
            rcases he' with he' | he'
            · have : edge_constraint na inc e' = edge_constraint na inc e :=
                edge_constraint_congr na inc e e' (by rw [he']) (by rw [he'])
              rw [this, hc] at hce
              simp only [Except.ok.injEq] at hce
              exact absurd (hce ▸ h1) hne
            · exact ih (rem - 1) cs0 hcs0 e' he' c hce hne
          · simp only [shares, h1, if_true, h2, if_false, with_instances,
              List.zipWith_cons_cons, List.mem_cons] at he'
            rcases he' with he' | he'
            · have : edge_constraint na inc e' = edge_constraint na inc e :=
                edge_constraint_congr na inc e e' (by rw [he']) (by rw [he'])
              rw [this, hc] at hce
              simp only [Except.ok.injEq] at hce
              exact absurd (hce ▸ h1) hne
            · exact ih rem cs0 hcs0 e' he' c hce hne
        · simp only [shares, h1, if_false, with_instances, List.zipWith_cons_cons,
            List.mem_cons] at he'
          rcases he' with he' | he'
          · have : edge_constraint na inc e' = edge_constraint na inc e :=
              edge_constraint_congr na inc e e' (by rw [he']) (by rw [he'])
            rw [this, hc] at hce
            simp only [Except.ok.injEq] at hce
            rw [he', ← hce]
          · exact ih rem cs0 hcs0 e' he' c hce hne

/-- Whatever code `satisfy_io_constraints` returns, it hands back as many
edges as it was given, with the same endpoints. -/
theorem satisfy_io_constraints_endpoints (na : List sgsh_node) (loc : io_locals) (C : Int)
    (es es' : List sgsh_edge) (inc r : Int)
    (h : satisfy_io_constraints na loc C es inc = Except.ok (r, es')) :
    es'.map (fun e => (e.from_, e.to_)) = es.map (fun e => (e.from_, e.to_)) := by
  rw [satisfy_io_constraints_eq] at h
  cases hcs : edge_constraints na inc es with
  | error f => rw [hcs] at h; simp at h
  | ok cs =>
    rw [hcs] at h
    simp only [] at h
    cases hev : eval_constraints C (loc.total_edge_constraints + fixed_total cs)
        (unlimited_count cs) 0 0 loc.instances with
    | error f => rw [hev] at h; simp at h
    | ok v =>
      obtain ⟨r0, each, rem, inst⟩ := v
      rw [hev] at h
      simp only [] at h
      by_cases hr : r0 = OP_ERROR
      · rw [if_pos hr] at h
        injection h with h
        injection h with h1 h2
        rw [← h2]
      · rw [if_neg hr] at h
        by_cases hchk : (if C = -1 then inst = (shares each rem cs).sum
            else C = inst ∧ inst = (shares each rem cs).sum)
        · rw [if_pos hchk] at h
          injection h with h
          injection h with h1 h2
          have hlen : (shares each rem cs).length = es.length := by
            rw [shares_length, edge_constraints_length _ _ _ _ hcs]
          rw [← h2]
          exact (with_instances_spec es (shares each rem cs) hlen).2
        · rw [if_neg hchk] at h
          exact absurd h (by simp)

/-- When `satisfy_io_constraints` returns success, every edge whose peer
constraint is fixed carries exactly that constraint. -/
theorem satisfy_io_constraints_fixed_peer (na : List sgsh_node) (loc : io_locals) (C : Int)
    (es es' : List sgsh_edge) (inc : Int)
    (h : satisfy_io_constraints na loc C es inc = Except.ok (OP_SUCCESS, es')) :
    ∀ e' ∈ es', ∀ c : Int, edge_constraint na inc e' = Except.ok c → c ≠ -1 →
      e'.instances = c := by
  rw [satisfy_io_constraints_eq] at h
  cases hcs : edge_constraints na inc es with
  | error f => rw [hcs] at h; simp at h
  | ok cs =>
    rw [hcs] at h
    simp only [] at h
    cases hev : eval_constraints C (loc.total_edge_constraints + fixed_total cs)
        (unlimited_count cs) 0 0 loc.instances with
    | error f => rw [hev] at h; simp at h
    | ok v =>
      obtain ⟨r0, each, rem, inst⟩ := v
      rw [hev] at h
      simp only [] at h
      by_cases hr : r0 = OP_ERROR
      · rw [if_pos hr] at h
        simp [OP_SUCCESS, OP_ERROR] at h
      · rw [if_neg hr] at h
        by_cases hchk : (if C = -1 then inst = (shares each rem cs).sum
            else C = inst ∧ inst = (shares each rem cs).sum)
        · rw [if_pos hchk] at h
          injection h with h
          injection h with h1 h2
          rw [← h2]
          exact with_instances_shares_fixed na inc each es rem cs hcs
        · rw [if_neg hchk] at h
          exact absurd h (by simp)

/-- The code returned by `satisfy_io_constraints` is `OP_ERROR` or
`OP_SUCCESS`. -/
theorem satisfy_io_constraints_code (na : List sgsh_node) (loc : io_locals) (C : Int)
    (es es' : List sgsh_edge) (inc r : Int)
    (h : satisfy_io_constraints na loc C es inc = Except.ok (r, es')) :
    r = OP_ERROR ∨ r = OP_SUCCESS := by
  rw [satisfy_io_constraints_eq] at h
  cases hcs : edge_constraints na inc es with
  | error f => rw [hcs] at h; simp at h
  | ok cs =>
    rw [hcs] at h
    simp only [] at h
    cases hev : eval_constraints C (loc.total_edge_constraints + fixed_total cs)
        (unlimited_count cs) 0 0 loc.instances with
    | error f => rw [hev] at h; simp at h
    | ok v =>
      obtain ⟨r0, each, rem, inst⟩ := v
      rw [hev] at h
      simp only [] at h
      by_cases hr : r0 = OP_ERROR
      · rw [if_pos hr] at h
        injection h with h
        injection h with h1 h2
        exact Or.inl h1.symm
      · rw [if_neg hr] at h
        by_cases hchk : (if C = -1 then inst = (shares each rem cs).sum
            else C = inst ∧ inst = (shares each rem cs).sum)
        · rw [if_pos hchk] at h
          injection h with h
          injection h with h1 h2
          exact Or.inr h1.symm
        · rw [if_neg hchk] at h
          exact absurd h (by simp)

/-- What `store_back` leaves in the array: records that were written, and
records of the array that the selector does not select. -/
theorem store_back_mem (sel : sgsh_edge → Bool) (ea ws : List sgsh_edge)
    (hlen : ws.length = (ea.filter sel).length) :
    ∀ x ∈ store_back sel ea ws, x ∈ ws ∨ (x ∈ ea ∧ sel x = false) := by
  induction ea generalizing ws with
  | nil => intro x hx; simp [store_back] at hx
  | cons e ea ih =>
    intro x hx
    by_cases hs : sel e = true
    · rw [List.filter_cons_of_pos hs] at hlen
      cases ws with
      | nil => simp at hlen
      | cons w ws =>
        simp only [List.length_cons, add_left_inj] at hlen
        simp only [store_back, hs, if_true, List.mem_cons] at hx
        rcases hx with hx | hx
        · exact Or.inl (by simp [hx])
        · rcases ih ws hlen x hx with h | h
          · exact Or.inl (List.mem_cons_of_mem _ h)
          · exact Or.inr ⟨List.mem_cons_of_mem _ h.1, h.2⟩
    · rw [List.filter_cons_of_neg hs] at hlen
      simp only [Bool.not_eq_true] at hs
      simp only [store_back, hs, Bool.false_eq_true, if_false, List.mem_cons] at hx
      rcases hx with hx | hx
      · exact Or.inr ⟨by simp [hx], by rw [hx]; exact hs⟩
      · rcases ih ws hlen x hx with h | h
        · exact Or.inl h
        · exact Or.inr ⟨List.mem_cons_of_mem _ h.1, h.2⟩

/-- After a successful `dry_match_io_constraints` for node `ni`, the node
array is the one before, and every edge at `ni` whose two end nodes declare
the same fixed capacity carries that capacity. -/
theorem dry_match_io_constraints_fixed (pi po : unset_pointer) (ki ko : Int)
    (lo li : io_locals) (ni : Int) (s s' : State)
    (h : dry_match_io_constraints pi ki po ko lo li ni s = Except.ok (OP_SUCCESS, s')) :
    s'.chosen_mb.node_array = s.chosen_mb.node_array ∧ s'.self_node = s.self_node ∧
    ∀ x ∈ s'.chosen_mb.edge_array, (x.from_ = ni ∨ x.to_ = ni) →
      ∀ c : Int, c ≠ -1 → edge_constraint s.chosen_mb.node_array 1 x = Except.ok c →
        edge_constraint s.chosen_mb.node_array 0 x = Except.ok c → x.instances = c := by
  unfold dry_match_io_constraints at h
  simp only [] at h
  split at h
  · exact absurd h (by simp)
  split at h
  · exact absurd h (by simp)
  cases h1 : satisfy_io_constraints s.chosen_mb.node_array lo s.self_node.provides_channels
      (s.chosen_mb.edge_array.filter (fun e => e.from_ == ni)) 0 with
  | error f => rw [h1] at h; simp [bind, Except.bind] at h
  | ok v1 =>
    obtain ⟨r1, ws1⟩ := v1
    rw [h1] at h
    simp only [bind, Except.bind] at h
    by_cases hr1 : r1 = OP_ERROR
    · rw [if_pos hr1] at h
      simp [OP_SUCCESS, OP_ERROR] at h
    · rw [if_neg hr1] at h
      have hl1 : ws1.length = (s.chosen_mb.edge_array.filter (fun e => e.from_ == ni)).length := by
        have := congrArg List.length (satisfy_io_constraints_endpoints _ _ _ _ _ _ _ h1)
        simpa using this
      have hs1 : r1 = OP_SUCCESS := by
        rcases satisfy_io_constraints_code _ _ _ _ _ _ _ h1 with h0 | h0
        · exact absurd h0 hr1
        · exact h0
      rw [hs1] at h1
      generalize hea1 : store_back (fun e => e.from_ == ni) s.chosen_mb.edge_array ws1 = ea1 at h
      split at h
      · exact absurd h (by simp)
      cases h2 : satisfy_io_constraints s.chosen_mb.node_array li s.self_node.requires_channels
          (ea1.filter (fun e => e.to_ == ni)) 1 with
      | error f => rw [h2] at h; simp at h
      | ok v2 =>
        obtain ⟨r2, ws2⟩ := v2
        rw [h2] at h
        simp only [] at h
        by_cases hr2 : r2 = OP_ERROR
        · rw [if_pos hr2] at h
          simp [OP_SUCCESS, OP_ERROR] at h
        · rw [if_neg hr2] at h
          have hl2 : ws2.length = (ea1.filter (fun e => e.to_ == ni)).length := by
            have := congrArg List.length (satisfy_io_constraints_endpoints _ _ _ _ _ _ _ h2)
            simpa using this
          have hs2 : r2 = OP_SUCCESS := by
            rcases satisfy_io_constraints_code _ _ _ _ _ _ _ h2 with h0 | h0
            · exact absurd h0 hr2
            · exact h0
          rw [hs2] at h2
          injection h with h
          injection h with _ h
          subst h
          refine ⟨rfl, rfl, ?_⟩
          intro x hx hat c hc hin hout
          simp only [] at hx
          rcases store_back_mem _ ea1 ws2 hl2 x hx with hw | ⟨hx1, hsel⟩
          · exact satisfy_io_constraints_fixed_peer _ _ _ _ _ _ h2 x hw c hin hc
          · rw [← hea1] at hx1
            rcases store_back_mem _ _ ws1 hl1 x hx1 with hw | ⟨_, hsel1⟩
            · exact satisfy_io_constraints_fixed_peer _ _ _ _ _ _ h1 x hw c hout hc
            · simp only [beq_eq_false_iff_ne, ne_eq] at hsel hsel1
              rcases hat with hat | hat
              · exact absurd hat hsel1
              · exact absurd hat hsel

/-- The code returned by `dry_match_io_constraints` is `OP_ERROR` or
`OP_SUCCESS`. -/
theorem dry_match_io_constraints_code (pi po : unset_pointer) (ki ko : Int)
    (lo li : io_locals) (ni : Int) (s s' : State) (r : Int)
    (h : dry_match_io_constraints pi ki po ko lo li ni s = Except.ok (r, s')) :
    r = OP_ERROR ∨ r = OP_SUCCESS := by
  unfold dry_match_io_constraints at h
  simp only [] at h
  split at h
  · exact absurd h (by simp)
  split at h
  · exact absurd h (by simp)
  cases h1 : satisfy_io_constraints s.chosen_mb.node_array lo s.self_node.provides_channels
      (s.chosen_mb.edge_array.filter (fun e => e.from_ == ni)) 0 with
  | error f => rw [h1] at h; simp [bind, Except.bind] at h
  | ok v1 =>
    obtain ⟨r1, ws1⟩ := v1
    rw [h1] at h
    simp only [bind, Except.bind] at h
    by_cases hr1 : r1 = OP_ERROR
    · rw [if_pos hr1] at h
      injection h with h
      injection h with h _
      exact Or.inl h.symm
    · rw [if_neg hr1] at h
      generalize store_back (fun e => e.from_ == ni) s.chosen_mb.edge_array ws1 = ea1 at h
      split at h
      · exact absurd h (by simp)
      cases h2 : satisfy_io_constraints s.chosen_mb.node_array li s.self_node.requires_channels
          (ea1.filter (fun e => e.to_ == ni)) 1 with
      | error f => rw [h2] at h; simp at h
      | ok v2 =>
        obtain ⟨r2, ws2⟩ := v2
        rw [h2] at h
        simp only [] at h
        by_cases hr2 : r2 = OP_ERROR
        · rw [if_pos hr2] at h
          injection h with h
          injection h with h _
          exact Or.inl h.symm
        · rw [if_neg hr2] at h
          injection h with h
          injection h with h _
          exact Or.inr h.symm

/-- Invariant of the loop of `solve_sgsh_graph`: in every record of the
solution, every edge whose two end nodes declare the same fixed capacity
carries that capacity. -/
theorem solve_sgsh_graph_loop_fixed (locals : Nat → solve_locals) (na nds : List sgsh_node)
    (i : Nat) (acc : List sgsh_node_connections) (s s' : State) (r : Int)
    (h : solve_sgsh_graph_loop locals nds i acc s = Except.ok (r, s'))
    (hna : s.chosen_mb.node_array = na)
    (hacc : ∀ rc ∈ acc, ∀ x, (x ∈ rc.edges_outgoing ∨ x ∈ rc.edges_incoming) →
      ∀ c : Int, c ≠ -1 → edge_constraint na 1 x = Except.ok c →
        edge_constraint na 0 x = Except.ok c → x.instances = c) :
    ∀ rc ∈ s'.graph_solution, ∀ x, (x ∈ rc.edges_outgoing ∨ x ∈ rc.edges_incoming) →
      ∀ c : Int, c ≠ -1 → edge_constraint na 1 x = Except.ok c →
        edge_constraint na 0 x = Except.ok c → x.instances = c := by
  induction nds generalizing i acc s with
  | nil =>
    simp only [solve_sgsh_graph_loop] at h
    injection h with h
    injection h with _ h
    subst h
    exact hacc
  | cons nd nds ih =>
    unfold solve_sgsh_graph_loop at h
    simp only [] at h
    cases hd : dry_match_io_constraints (locals i).edges_incoming (locals i).n_edges_incoming
        (locals i).edges_outgoing (locals i).n_edges_outgoing
        (locals i).outgoing (locals i).incoming nd.index s with
    | error f => rw [hd] at h; simp [bind, Except.bind] at h
    | ok v =>
      obtain ⟨r1, s1⟩ := v
      rw [hd] at h
      simp only [bind, Except.bind] at h
      by_cases hr1 : r1 = OP_ERROR
      · rw [if_pos hr1] at h
        simp at h
      · rw [if_neg hr1] at h
        have hs1 : r1 = OP_SUCCESS := by
          rcases dry_match_io_constraints_code _ _ _ _ _ _ _ _ _ _ hd with h0 | h0
          · exact absurd h0 hr1
          · exact h0
        rw [hs1] at hd
        obtain ⟨hn1, _, hfix⟩ := dry_match_io_constraints_fixed _ _ _ _ _ _ _ _ _ hd
        rw [hna] at hn1 hfix
        refine ih (i + 1) _ s1 h hn1 ?_
        intro rc hrc x hx c hc hin hout
        rw [List.mem_append, List.mem_singleton] at hrc
        rcases hrc with hrc | hrc
        · exact hacc rc hrc x hx c hc hin hout
        · subst hrc
          simp only [make_compact_edge_array, List.mem_filter, beq_iff_eq] at hx
          rcases hx with ⟨hmem, hat⟩ | ⟨hmem, hat⟩
          · exact hfix x hmem (Or.inl hat) c hc hin hout
          · exact hfix x hmem (Or.inr hat) c hc hin hout

/-- With quantum 5 and no remainder, a flexible peer is handed 5 and a fixed
peer its constraint. -/
theorem shares_quantum (cs : List Int) :
    shares 5 0 cs = cs.map (fun c => if c = -1 then 5 else c) := by
  induction cs with
  | nil => rfl
  | cons c cs ih =>
    by_cases hc : c = -1
    · simp [shares, hc, ih]
    · simp [shares, hc, ih]

/-- Unlimited capacity with the accumulator found at 0: the call succeeds,
every flexible peer is handed 5 and every fixed peer its constraint. -/
theorem satisfy_io_constraints_unlimited_zero (na : List sgsh_node) (inst : Int)
    (es : List sgsh_edge) (inc : Int) (cs : List Int)
    (hcs : edge_constraints na inc es = Except.ok cs) :
    satisfy_io_constraints na { total_edge_constraints := 0, instances := inst } (-1) es inc =
      Except.ok (OP_SUCCESS, with_instances es (cs.map (fun c => if c = -1 then 5 else c))) := by
  rw [satisfy_io_constraints_eq, hcs]
  have hev : eval_constraints (-1) (0 + fixed_total cs) (unlimited_count cs) 0 0 inst =
      Except.ok (OP_SUCCESS, 5, 0, 0 + fixed_total cs + unlimited_count cs * 5) := by
    simp [eval_constraints]
  simp only [hev]
  rw [if_neg (by decide)]
  have hsum := shares_sum 5 0 cs (le_refl 0) (unlimited_count_nonneg cs)
  rw [if_pos (by simp only [if_true]; rw [hsum]; ring), shares_quantum]

/-- Fixed capacity above the fixed peers plus one channel per flexible peer,
with at least one flexible peer and the accumulator found at 0: the call
succeeds, every fixed peer is handed its constraint, every flexible peer the
floor quotient of the surplus, and the first flexible peers, as many as the
remainder, one more. -/
theorem satisfy_io_constraints_surplus_zero (na : List sgsh_node) (inst C : Int)
    (es : List sgsh_edge) (inc : Int) (cs : List Int)
    (hcs : edge_constraints na inc es = Except.ok cs) (hC : C ≠ -1)
    (hk : 1 ≤ unlimited_count cs) (hsur : fixed_total cs + unlimited_count cs < C) :
    satisfy_io_constraints na { total_edge_constraints := 0, instances := inst } C es inc =
      Except.ok (OP_SUCCESS, with_instances es
        (shares ((C - fixed_total cs) / unlimited_count cs)
          ((C - fixed_total cs) % unlimited_count cs) cs)) := by
  rw [satisfy_io_constraints_eq, hcs]
  have ha : 0 ≤ C - fixed_total cs := by omega
  have hk0 : 0 ≤ unlimited_count cs := by omega
  have hev : eval_constraints C (0 + fixed_total cs) (unlimited_count cs) 0 0 inst =
      Except.ok (OP_SUCCESS, (C - fixed_total cs) / unlimited_count cs,
        (C - fixed_total cs) % unlimited_count cs, C) := by
    simp only [eval_constraints, if_neg hC, zero_add, if_neg (not_lt.mpr hsur.le),
      if_neg (ne_of_gt hsur), if_neg (show ¬ unlimited_count cs = 0 by omega),
      Int.tdiv_eq_ediv ha hk0, Int.tmod_eq_emod ha hk0]
  simp only [hev]
  rw [if_neg (by decide)]
  have hr0 : 0 ≤ (C - fixed_total cs) % unlimited_count cs :=
    Int.emod_nonneg _ (by omega)
  have hrk : (C - fixed_total cs) % unlimited_count cs < unlimited_count cs :=
    Int.emod_lt_of_pos _ (by omega)
  have hsum := shares_sum ((C - fixed_total cs) / unlimited_count cs) _ cs hr0 hrk.le
  have hdm := Int.ediv_add_emod (C - fixed_total cs) (unlimited_count cs)
  rw [if_pos]
  simp only [if_neg hC, true_and]
  rw [hsum]
  linarith [mul_comm ((C - fixed_total cs) / unlimited_count cs) (unlimited_count cs)]

/-- The only code `solve_sgsh_graph` returns is `OP_SUCCESS`: a node whose
constraints cannot be satisfied ends the run in `err(1, ...)`. -/
theorem solve_sgsh_graph_loop_code (locals : Nat → solve_locals) (nds : List sgsh_node)
    (i : Nat) (acc : List sgsh_node_connections) (s s' : State) (r : Int)
    (h : solve_sgsh_graph_loop locals nds i acc s = Except.ok (r, s')) : r = OP_SUCCESS := by
  induction nds generalizing i acc s with
  | nil =>
    simp only [solve_sgsh_graph_loop] at h
    injection h with h
    injection h with h _
    exact h.symm
  | cons nd nds ih =>
    unfold solve_sgsh_graph_loop at h
    simp only [] at h
    cases hd : dry_match_io_constraints (locals i).edges_incoming (locals i).n_edges_incoming
        (locals i).edges_outgoing (locals i).n_edges_outgoing
        (locals i).outgoing (locals i).incoming nd.index s with
    | error f => rw [hd] at h; simp [bind, Except.bind] at h
    | ok v =>
      obtain ⟨r1, s1⟩ := v
      rw [hd] at h
      simp only [bind, Except.bind] at h
      by_cases hr1 : r1 = OP_ERROR
      · rw [if_pos hr1] at h
        simp at h
      · rw [if_neg hr1] at h
        exact ih (i + 1) _ s1 h

/-! ## Properties of the constraint solver -/

/-- What `eval_constraints` returns on the numbers it is handed: `OP_ERROR`
exactly when the capacity is fixed (not -1) and smaller than
`total_edge_constraints` plus the number of flexible edges.  The sum of the
fixed peer constraints reaches it in `total_edge_constraints` only when the
aggregation loop of the caller starts at 0, as in the second part, which the
source does not see to. -/
theorem eval_constraints_error_iff :
    (∀ this_node_channels total_edge_constraints n_edges_unlimited_constraint each rem inst : Int,
      (∃ each' rem' inst',
        eval_constraints this_node_channels total_edge_constraints
          n_edges_unlimited_constraint each rem inst =
          Except.ok (OP_ERROR, each', rem', inst')) ↔
      (this_node_channels ≠ -1 ∧
        this_node_channels < total_edge_constraints + n_edges_unlimited_constraint)) ∧
    satisfy_io_constraints_aggregate s3_nodes 0 s3_edges 0 0 = Except.ok (2 + 1, 0) ∧
    (∀ each rem inst : Int,
      eval_constraints 2 (2 + 1) 0 each rem inst = Except.ok (OP_ERROR, each, rem, inst)) := by
  refine ⟨?_, by rfl, ?_⟩
  · intro C T k each rem inst
    unfold eval_constraints
    constructor
    · rintro ⟨each', rem', inst', h⟩
      split at h
      · simp [OP_SUCCESS, OP_ERROR] at h
      · next hC =>
        split at h
        · next hlt => exact ⟨hC, hlt⟩
        · split at h
          · simp [OP_SUCCESS, OP_ERROR] at h
          · split at h
            · simp at h
            · simp [OP_SUCCESS, OP_ERROR] at h
    · rintro ⟨hC, hlt⟩
      rw [if_neg hC, if_pos hlt]
      exact ⟨each, rem, inst, rfl⟩
  · intro each rem inst
    rfl

/-- C2: the peer constraints of scenario S3 are 2 and 1, so the fixed sum is
3 and no edge is flexible.  For the capacity 3, which is not smaller than
that sum, `satisfy_io_constraints` with its uninitialised accumulator at 1
hands `eval_constraints` the sum 4 and reports `OP_ERROR`.  For the capacity
2 of S3, which is smaller than the sum, `eval_constraints` reports `OP_ERROR`
only when the accumulator is found at 0: found at -1 it is handed the sum 2,
reports success and the run stops at a failed assertion of
`assign_edge_instances`; found at -3 it is handed 0 and divides by the count
of flexible edges, which is 0. -/
theorem satisfy_io_constraints_error_uninitialised :
    edge_constraints s3_nodes 0 s3_edges = Except.ok [2, 1] ∧
    fixed_total [2, 1] = 3 ∧ unlimited_count [2, 1] = 0 ∧
    satisfy_io_constraints_aggregate s3_nodes 0 s3_edges 1 0 = Except.ok (4, 0) ∧
    eval_constraints 3 4 0 0 0 0 = Except.ok (OP_ERROR, 0, 0, 0) ∧
    satisfy_io_constraints s3_nodes { total_edge_constraints := 1, instances := 0 } 3
      s3_edges 0 = Except.ok (OP_ERROR, s3_edges) ∧
    satisfy_io_constraints s3_nodes { total_edge_constraints := 0, instances := 0 } 2
      s3_edges 0 = Except.ok (OP_ERROR, s3_edges) ∧
    eval_constraints 2 2 0 0 0 0 = Except.ok (OP_SUCCESS, 1, 0, 2) ∧
    satisfy_io_constraints s3_nodes { total_edge_constraints := -1, instances := 0 } 2
      s3_edges 0 = Except.error Fault.aborted ∧
    satisfy_io_constraints s3_nodes { total_edge_constraints := -3, instances := 0 } 2
      s3_edges 0 = Except.error Fault.undefined :=
  ⟨by rfl, by rfl, by rfl, by rfl, by rfl, by rfl, by rfl, by rfl, by rfl, by rfl⟩

/-- C3: when `satisfy_io_constraints` returns success for a fixed capacity,
the edges it hands back are the edges it was given, endpoint by endpoint, and
the instances written to them add up to the capacity; this holds whatever
the uninitialised locals contain. -/
theorem satisfy_io_constraints_capacity (node_array : List sgsh_node) (locals : io_locals)
    (this_node_channels : Int) (edges edges' : List sgsh_edge) (is_edge_incoming : Int)
    (hfixed : this_node_channels ≠ -1)
    (h : satisfy_io_constraints node_array locals this_node_channels edges is_edge_incoming =
      Except.ok (OP_SUCCESS, edges')) :
    edges'.map (fun e => (e.from_, e.to_)) = edges.map (fun e => (e.from_, e.to_)) ∧
    (edges'.map (fun e => e.instances)).sum = this_node_channels := by
  rw [satisfy_io_constraints_eq] at h
  cases hcs : edge_constraints node_array is_edge_incoming edges with
  | error f => rw [hcs] at h; simp at h
  | ok cs =>
    rw [hcs] at h
    simp only [] at h
    cases hev : eval_constraints this_node_channels
        (locals.total_edge_constraints + fixed_total cs) (unlimited_count cs) 0 0
        locals.instances with
    | error f => rw [hev] at h; simp at h
    | ok v =>
      obtain ⟨r, each, rem, inst⟩ := v
      rw [hev] at h
      simp only [if_neg hfixed] at h
      split at h
      · simp [OP_SUCCESS, OP_ERROR] at h
      · split at h
        · next hsum =>
          simp only [Except.ok.injEq, Prod.mk.injEq, true_and] at h
          have hlen : (shares each rem cs).length = edges.length := by
            rw [shares_length, edge_constraints_length _ _ _ _ hcs]
          have hw := with_instances_spec edges (shares each rem cs) hlen
          rw [← h, hw.1, hw.2, hsum.1, hsum.2]
          exact ⟨rfl, rfl⟩
        · simp at h

/-- Witness for C3: scenario S5 with the accumulator found at 0. -/
theorem satisfy_io_constraints_capacity_witness :
    (7 : Int) ≠ -1 ∧
    satisfy_io_constraints s5_nodes { total_edge_constraints := 0, instances := 0 } 7 s5_edges 0 =
      Except.ok (OP_SUCCESS, s5_solved) ∧
    s5_solved.map (fun e => (e.from_, e.to_)) = s5_edges.map (fun e => (e.from_, e.to_)) ∧
    (s5_solved.map (fun e => e.instances)).sum = 7 :=
  ⟨by decide, by rfl,
   satisfy_io_constraints_capacity s5_nodes { total_edge_constraints := 0, instances := 0 } 7
     s5_edges s5_solved 0 (by decide) (by rfl)⟩

/-- C4, at its failing input: in scenario S5 (capacity 7, three flexible
edges) `satisfy_io_constraints` hands out 3, 2, 2 when its uninitialised
accumulator `total_edge_constraints` happens to hold 0, and stops at the
failed assertion `total_instances == count_channels` when it holds 1. -/
theorem satisfy_io_constraints_surplus_uninitialised :
    satisfy_io_constraints s5_nodes { total_edge_constraints := 0, instances := 0 } 7 s5_edges 0 =
      Except.ok (OP_SUCCESS, s5_solved) ∧
    satisfy_io_constraints s5_nodes { total_edge_constraints := 1, instances := 0 } 7 s5_edges 0 =
      Except.error Fault.aborted :=
  ⟨by rfl, by rfl⟩

/-- C5, at its failing input: in scenario S2 (unlimited provider, two peers
requiring 1 each) `satisfy_io_constraints` gives each edge 1 when its
uninitialised accumulator `total_edge_constraints` happens to hold 0, and
stops at the failed assertion `total_instances == count_channels` when it
holds 1. -/
theorem satisfy_io_constraints_unlimited_uninitialised :
    satisfy_io_constraints s2_nodes { total_edge_constraints := 0, instances := 0 } (-1)
      s2_edges 0 = Except.ok (OP_SUCCESS, s2_solved) ∧
    satisfy_io_constraints s2_nodes { total_edge_constraints := 1, instances := 0 } (-1)
      s2_edges 0 = Except.error Fault.aborted :=
  ⟨by rfl, by rfl⟩

/-- C6, at its failing input: the tools that are node 0 and node 1 of the
same frozen graph `ring_block` both solve it with success, yet their
solutions differ: for the edge 0 -> 1, which leaves the unlimited node 0, the
outgoing record of node 0 holds 5 instances at node 0 and 2 instances at
node 1, whose own output capacity is 2. -/
theorem solve_sgsh_graph_depends_on_self_node :
    ring_at_0.chosen_mb = ring_at_1.chosen_mb ∧
    (solve_sgsh_graph zero_locals ring_at_0).map (fun r => (r.1, r.2.graph_solution)) =
      Except.ok (OP_SUCCESS, ring_solution_at_0) ∧
    (solve_sgsh_graph zero_locals ring_at_1).map (fun r => (r.1, r.2.graph_solution)) =
      Except.ok (OP_SUCCESS, ring_solution_at_1) ∧
    ring_solution_at_0 ≠ ring_solution_at_1 :=
  ⟨by rfl, by rfl, by rfl, by decide⟩

/-- For every content of the unset storage: when the embedded
`solve_sgsh_graph` returns success, which needs pointer variables that hold
usable addresses, the two records of an edge u -> v store the same number if
the output capacity declared by u is fixed and equal to the input capacity
declared by v, namely that capacity. -/
theorem solve_sgsh_graph_ends_agree_fixed (locals : Nat → solve_locals) (s s' : State)
    (h : solve_sgsh_graph locals s = Except.ok (OP_SUCCESS, s')) :
    ends_agree_on (fixed_equal_capacities s.chosen_mb.node_array) s'.graph_solution := by
  unfold solve_sgsh_graph at h
  have key := solve_sgsh_graph_loop_fixed locals s.chosen_mb.node_array s.chosen_mb.node_array
    0 [] s s' OP_SUCCESS h rfl (by intro rc hrc; simp at hrc)
  intro u v ru rv hu hv eo heo ei hei h1 h2 h3 h4 hgood
  obtain ⟨c, hc, hin, hout⟩ := hgood
  have e1 := key ru (List.getElem?_mem hu) eo (Or.inl heo) c hc hin hout
  have hin' : edge_constraint s.chosen_mb.node_array 1 ei = Except.ok c := by
    rw [edge_constraint_congr _ _ eo ei (by rw [h3, h1]) (by rw [h4, h2])]; exact hin
  have hout' : edge_constraint s.chosen_mb.node_array 0 ei = Except.ok c := by
    rw [edge_constraint_congr _ _ eo ei (by rw [h3, h1]) (by rw [h4, h2])]; exact hout
  have e2 := key rv (List.getElem?_mem hv) ei (Or.inr hei) c hc hin' hout'
  rw [e1, e2]

/-! ## Properties of the competition rule -/


/-- C1: when `compete_message_block` returns success, the block held
afterwards carries the smaller of the two initiator pids (that of the fresh
block and that of the block held before); in particular the held initiator
pid does not increase. -/
theorem compete_message_block_initiator_min (new_edge : sgsh_edge) (fresh_mb : sgsh_negotiation)
    (s s' : State) (should_transmit_mb : Int)
    (h : compete_message_block new_edge fresh_mb s =
      Except.ok (OP_SUCCESS, should_transmit_mb, s')) :
    s'.chosen_mb.initiator_pid = min fresh_mb.initiator_pid s.chosen_mb.initiator_pid ∧
    s'.chosen_mb.initiator_pid ≤ s.chosen_mb.initiator_pid := by
  have key : s'.chosen_mb.initiator_pid =
      min fresh_mb.initiator_pid s.chosen_mb.initiator_pid := by
    rcases compete_message_block_cases new_edge fresh_mb s s' _ _ h with
      ⟨hlt, _, _, r1, s1, r2, s2, hn, he, hs⟩ | ⟨hgt, _, _, hs⟩ | ⟨heq, _, _, r2, he⟩
    · have h1 := try_add_sgsh_node_initiator _ _ _ hn
      have h2 := try_add_sgsh_edge_initiator _ _ _ _ he
      rw [hs, min_eq_left hlt.le]
      simp only [] at h1 ⊢
      rw [h2, h1]
    · rw [hs, min_eq_right hgt.le]
    · have h2 := try_add_sgsh_edge_initiator _ _ _ _ he
      rw [h2, heq, min_self]
      split <;> simp [heq]
  exact ⟨key, key ▸ min_le_right _ _⟩

/-- Witness for C1: scenario S4 at the tool with pid 200. -/
theorem compete_message_block_initiator_min_witness :
    compete_message_block junk_edge s4_fresh s4_held = Except.ok (OP_SUCCESS, 1, s4_after) ∧
    s4_after.chosen_mb.initiator_pid =
      min s4_fresh.initiator_pid s4_held.chosen_mb.initiator_pid ∧
    s4_after.chosen_mb.initiator_pid ≤ s4_held.chosen_mb.initiator_pid :=
  ⟨by rfl, compete_message_block_initiator_min junk_edge s4_fresh s4_held s4_after 1 (by rfl)⟩

/-- C8: when the fresh block has the larger initiator pid,
`compete_message_block` returns with `should_transmit_mb` cleared and the
held block unchanged in every field; and whenever it returns,
`should_transmit_mb` is cleared only in that case. -/
theorem compete_message_block_discard (new_edge : sgsh_edge) (fresh_mb : sgsh_negotiation)
    (s : State) :
    (s.chosen_mb.initiator_pid < fresh_mb.initiator_pid →
      ∃ s', compete_message_block new_edge fresh_mb s = Except.ok (OP_SUCCESS, 0, s') ∧
        s'.chosen_mb = s.chosen_mb) ∧
    (∀ r should_transmit_mb s',
      compete_message_block new_edge fresh_mb s = Except.ok (r, should_transmit_mb, s') →
      (should_transmit_mb = 0 ↔ s.chosen_mb.initiator_pid < fresh_mb.initiator_pid)) := by
  constructor
  · intro hgt
    refine ⟨{ s with mb_is_updated := 0 }, ?_, rfl⟩
    unfold compete_message_block
    simp only []
    rw [if_neg (not_lt.mpr hgt.le), if_pos hgt]
  · intro r t s' h
    rcases compete_message_block_cases new_edge fresh_mb s s' r t h with
      ⟨hlt, _, ht, _⟩ | ⟨hgt, _, ht, _⟩ | ⟨heq, _, ht, _⟩
    · rw [ht]
      constructor
      · intro h0; exact absurd h0 (by decide)
      · intro hgt; exact absurd hgt (not_lt.mpr hlt.le)
    · rw [ht]
      exact ⟨fun _ => hgt, fun _ => rfl⟩
    · rw [ht]
      constructor
      · intro h0; exact absurd h0 (by decide)
      · intro hgt; rw [heq] at hgt; exact absurd hgt (lt_irrefl _)

/-- Witness for C8: the tool with pid 100 of scenario S4 receives the block
of initiator 200. -/
theorem compete_message_block_discard_witness :
    s4_initiator.chosen_mb.initiator_pid < s4_foreign.initiator_pid ∧
    (∃ s', compete_message_block junk_edge s4_foreign s4_initiator =
        Except.ok (OP_SUCCESS, 0, s') ∧ s'.chosen_mb = s4_initiator.chosen_mb) :=
  ⟨by decide,
   (compete_message_block_discard junk_edge s4_foreign s4_initiator).1 (by decide)⟩

/-- C9: with equal initiator pids `compete_message_block` keeps the fresh
block exactly when its serial number is larger and the held block otherwise,
and then does what `try_add_sgsh_edge` does on the block kept; when that
returns, it reports success with `should_transmit_mb` set and the block held
has a serial number no smaller than both serial numbers. -/
theorem compete_message_block_same_initiator (new_edge : sgsh_edge)
    (fresh_mb : sgsh_negotiation) (s : State)
    (heq : fresh_mb.initiator_pid = s.chosen_mb.initiator_pid) :
    compete_message_block new_edge fresh_mb s =
      (match try_add_sgsh_edge new_edge
          (if fresh_mb.serial_no > s.chosen_mb.serial_no then
            { s with mb_is_updated := 1, chosen_mb := fresh_mb }
           else { s with mb_is_updated := 0 }) with
       | Except.ok (_, s') => Except.ok (OP_SUCCESS, 1, s')
       | Except.error f => Except.error f) ∧
    ∀ r should_transmit_mb s',
      compete_message_block new_edge fresh_mb s = Except.ok (r, should_transmit_mb, s') →
      r = OP_SUCCESS ∧ should_transmit_mb = 1 ∧
      max fresh_mb.serial_no s.chosen_mb.serial_no ≤ s'.chosen_mb.serial_no := by
  constructor
  · unfold compete_message_block
    simp only []
    rw [if_neg (by rw [heq]; exact lt_irrefl _), if_neg (by rw [heq]; exact lt_irrefl _)]
    generalize hs0 : (if fresh_mb.serial_no > s.chosen_mb.serial_no then
          ({ s with mb_is_updated := 1, chosen_mb := fresh_mb } : State)
         else { s with mb_is_updated := 0 }) = s0
    cases he : try_add_sgsh_edge new_edge s0 with
    | error f => simp [bind, Except.bind]
    | ok v =>
      obtain ⟨r2, s2⟩ := v
      have hr2 := try_add_sgsh_edge_ne_error new_edge s0 s2 r2 he
      simp [bind, Except.bind, if_neg hr2]
  · intro r t s' h
    rcases compete_message_block_cases new_edge fresh_mb s s' r t h with
      ⟨hlt, _, _, _⟩ | ⟨hgt, _, _, _⟩ | ⟨_, hr, ht, r2, he⟩
    · rw [heq] at hlt; exact absurd hlt (lt_irrefl _)
    · rw [heq] at hgt; exact absurd hgt (lt_irrefl _)
    · refine ⟨hr, ht, ?_⟩
      have hser : ∀ (s0 s1 : State) (r : Int),
          try_add_sgsh_edge new_edge s0 = Except.ok (r, s1) →
          s0.chosen_mb.serial_no ≤ s1.chosen_mb.serial_no := by
        intro s0 s1 r h1
        rcases try_add_sgsh_edge_cases new_edge s0 s1 r h1 with h | h | ⟨_, e, _, h⟩
        · rw [h.2]
        · rw [h.2]
        · rw [h]; simp
      have h1 := hser _ _ _ he
      refine le_trans ?_ h1
      split
      · next hgt => simp only []; exact (max_eq_left (le_of_lt hgt)).le
      · next hle => simp only []; exact (max_eq_right (not_lt.mp hle)).le

/-- Witness for C9: the block of initiator 100 comes back to its initiator
with a larger serial number. -/
theorem compete_message_block_same_initiator_witness :
    s4_newer.initiator_pid = s4_initiator.chosen_mb.initiator_pid ∧
    (∃ s', compete_message_block junk_edge s4_newer s4_initiator =
        Except.ok (OP_SUCCESS, 1, s') ∧ s'.chosen_mb.serial_no = 6) ∧
    (∀ r should_transmit_mb s',
      compete_message_block junk_edge s4_newer s4_initiator =
        Except.ok (r, should_transmit_mb, s') →
      r = OP_SUCCESS ∧ should_transmit_mb = 1 ∧
      max s4_newer.serial_no s4_initiator.chosen_mb.serial_no ≤ s'.chosen_mb.serial_no) :=
  ⟨by decide, ⟨_, by rfl, by rfl⟩,
   (compete_message_block_same_initiator junk_edge s4_newer s4_initiator (by decide)).2⟩

/-! ## Properties of the registry -/

/-- C10: edge uniqueness is kept by `try_add_sgsh_edge`: if no two edges of
the held block share both endpoints, then whenever the function returns,
with whatever code, no two edges of the block share both endpoints. -/
theorem try_add_sgsh_edge_unique (new_edge : sgsh_edge) (s s' : State) (r : Int)
    (hu : edges_unique s.chosen_mb.edge_array)
    (h : try_add_sgsh_edge new_edge s = Except.ok (r, s')) :
    edges_unique s'.chosen_mb.edge_array := by
  rcases try_add_sgsh_edge_cases new_edge s s' r h with h | h | ⟨_, e, hl, h⟩
  · rw [h.2]; exact hu
  · rw [h.2]; exact hu
  · rw [h]
    simp only [edges_unique]
    rw [List.pairwise_append]
    refine ⟨hu, List.pairwise_singleton _ _, ?_⟩
    intro a ha b hb hab
    rw [List.mem_singleton] at hb
    subst hb
    unfold lookup_sgsh_edge at hl
    split at hl
    · exact absurd hl (by decide)
    · next hany =>
      apply hany
      rw [List.any_eq_true]
      exact ⟨a, ha, by simp [hab.1, hab.2]⟩

/-- Witness for C10: the initiator of scenario S4, holding the block that
came back from node 2, registers the edge 0 -> 2. -/
theorem try_add_sgsh_edge_unique_witness :
    edges_unique s4_returned.chosen_mb.edge_array ∧
    try_add_sgsh_edge junk_edge s4_returned = Except.ok (OP_SUCCESS, s4_registered) ∧
    edges_unique s4_registered.chosen_mb.edge_array :=
  ⟨by simp [edges_unique, s4_returned, s4_newer, mk_state, mk_block], by rfl,
   try_add_sgsh_edge_unique junk_edge s4_returned s4_registered OP_SUCCESS
     (by simp [edges_unique, s4_returned, s4_newer, mk_state, mk_block]) (by rfl)⟩

/-- C11: `try_add_sgsh_node` and `try_add_sgsh_edge` never change
`initiator_pid`; when they insert (code `OP_SUCCESS`) they append one record
to their list, leave the other list alone, raise `serial_no` by exactly one
and set the modified flag; when they insert nothing (codes `OP_EXISTS`,
`OP_NOOP`) the block is unchanged. -/
theorem registry_serial_no (new_edge : sgsh_edge) (s s' : State) (r : Int) :
    (try_add_sgsh_node s = Except.ok (r, s') →
      s'.chosen_mb.initiator_pid = s.chosen_mb.initiator_pid ∧
      ((r = OP_SUCCESS ∧ s'.chosen_mb.node_array = s.chosen_mb.node_array ++ [s.self_node] ∧
          s'.chosen_mb.edge_array = s.chosen_mb.edge_array ∧
          s'.chosen_mb.serial_no = s.chosen_mb.serial_no + 1 ∧ s'.mb_is_updated = 1) ∨
       (r = OP_EXISTS ∧ s'.chosen_mb = s.chosen_mb))) ∧
    (try_add_sgsh_edge new_edge s = Except.ok (r, s') →
      s'.chosen_mb.initiator_pid = s.chosen_mb.initiator_pid ∧
      ((r = OP_SUCCESS ∧ (∃ e, s'.chosen_mb.edge_array = s.chosen_mb.edge_array ++ [e]) ∧
          s'.chosen_mb.node_array = s.chosen_mb.node_array ∧
          s'.chosen_mb.serial_no = s.chosen_mb.serial_no + 1 ∧ s'.mb_is_updated = 1) ∨
       ((r = OP_EXISTS ∨ r = OP_NOOP) ∧ s'.chosen_mb = s.chosen_mb))) := by
  constructor
  · intro h
    rw [try_add_sgsh_node_eq] at h
    split at h
    · injection h with h
      injection h with h1 h2
      subst h2
      exact ⟨rfl, Or.inr ⟨h1.symm, rfl⟩⟩
    · injection h with h
      injection h with h1 h2
      subst h2
      exact ⟨rfl, Or.inl ⟨h1.symm, rfl, rfl, rfl, rfl⟩⟩
  · intro h
    rcases try_add_sgsh_edge_cases new_edge s s' r h with ⟨hr, hs⟩ | ⟨hr, hs⟩ | ⟨hr, e, _, hs⟩
    · subst hs
      exact ⟨rfl, Or.inr ⟨Or.inr hr, rfl⟩⟩
    · subst hs
      exact ⟨rfl, Or.inr ⟨Or.inl hr, rfl⟩⟩
    · subst hs
      exact ⟨rfl, Or.inl ⟨hr, ⟨e, rfl⟩, rfl, rfl, rfl⟩⟩

/-- Witness for C11: in scenario S4 the tool with pid 200 registers its node
in the block it adopted, and the initiator registers the edge 0 -> 2. -/
theorem registry_serial_no_witness :
    (try_add_sgsh_node s4_adopted = Except.ok (OP_SUCCESS, s4_joined) ∧
      s4_joined.chosen_mb.initiator_pid = s4_adopted.chosen_mb.initiator_pid ∧
      s4_joined.chosen_mb.serial_no = s4_adopted.chosen_mb.serial_no + 1) ∧
    (try_add_sgsh_edge junk_edge s4_returned = Except.ok (OP_SUCCESS, s4_registered) ∧
      s4_registered.chosen_mb.initiator_pid = s4_returned.chosen_mb.initiator_pid ∧
      s4_registered.chosen_mb.serial_no = s4_returned.chosen_mb.serial_no + 1) :=
  ⟨⟨by rfl,
    ((registry_serial_no junk_edge s4_adopted s4_joined OP_SUCCESS).1 (by rfl)).1, by rfl⟩,
   ⟨by rfl,
    ((registry_serial_no junk_edge s4_returned s4_registered OP_SUCCESS).2 (by rfl)).1,
    by rfl⟩⟩

/-- C13, at its failing input: in the block held by `far_dispatcher` every
edge has both endpoints among the two nodes and this tool is node 1; the
dispatcher tag names node 5.  `try_add_sgsh_edge` returns success and
appends the edge 1 -> 5, whose destination is no node of the block. -/
theorem try_add_sgsh_edge_endpoint_outside :
    endpoints_in_range far_dispatcher.chosen_mb ∧
    far_dispatcher.chosen_mb.node_array[1]? = some far_dispatcher.self_node ∧
    far_dispatcher.self_dispatcher.index = 1 ∧
    try_add_sgsh_edge junk_edge far_dispatcher = Except.ok (OP_SUCCESS, far_registered) ∧
    ¬ endpoints_in_range far_registered.chosen_mb :=
  ⟨by decide, by rfl, by rfl, by rfl, by decide⟩

/-- C14, at its failing input: the dispatcher index 5 of the block held by
`far_dispatcher` is no index of its two nodes, yet `fill_sgsh_edge` returns
`OP_SUCCESS` with the edge 1 -> 5 and `try_add_sgsh_edge` returns
`OP_SUCCESS`, having appended the edge and raised `serial_no` from 3 to 4.
With the dispatcher index 2, equal to the number of nodes, the search does
find the node missing and the run ends in `err(1, ...)`: no code is
returned. -/
theorem try_add_sgsh_edge_absent_dispatcher :
    far_dispatcher.chosen_mb.n_nodes ≤ far_dispatcher.chosen_mb.origin.index ∧
    fill_sgsh_edge far_dispatcher junk_edge =
      Except.ok (OP_SUCCESS, { from_ := 1, to_ := 5, instances := 13 }) ∧
    try_add_sgsh_edge junk_edge far_dispatcher = Except.ok (OP_SUCCESS, far_registered) ∧
    far_dispatcher.chosen_mb.serial_no = 3 ∧ far_registered.chosen_mb.serial_no = 4 ∧
    next_dispatcher.chosen_mb.n_nodes ≤ next_dispatcher.chosen_mb.origin.index ∧
    fill_sgsh_edge next_dispatcher junk_edge = Except.error Fault.exited ∧
    try_add_sgsh_edge junk_edge next_dispatcher = Except.error Fault.exited :=
  ⟨by decide, by rfl, by rfl, by rfl, by rfl, by decide, by rfl, by rfl⟩

/-! ## Properties of the round controller -/

/-- C15, counterexample: the tool with pid 200 is not the initiator (pid 100)
of the block it holds; the block is in the negotiation state and the modified
flag is clear.  `check_negotiation_round` sets the state flag to
`PROT_STATE_NEGOTIATION_END`. -/
theorem check_negotiation_round_follower_ends :
    idle_follower.self_node.pid ≠ idle_follower.chosen_mb.initiator_pid ∧
    idle_follower.chosen_mb.state_flag = prot_values.NEGOTIATION ∧
    (check_negotiation_round prot_values 0 idle_follower).2.chosen_mb.state_flag =
      prot_values.NEGOTIATION_END ∧
    prot_values.NEGOTIATION_END ≠ prot_values.NEGOTIATION :=
  ⟨by decide, by rfl, by rfl, by decide⟩

/-- C15, amended: on a block in the negotiation state,
`check_negotiation_round` sets the state flag to `PROT_STATE_NEGOTIATION_END`
exactly when the modified flag is clear, at the initiator and at every other
tool alike; whether this tool is the initiator decides only whether the round
counter advances. -/
theorem check_negotiation_round_state (P : prot_state) (negotiation_round : Int) (s : State)
    (h : s.chosen_mb.state_flag = P.NEGOTIATION) :
    (check_negotiation_round P negotiation_round s).2.chosen_mb.state_flag =
      (if s.mb_is_updated = 0 then P.NEGOTIATION_END else P.NEGOTIATION) ∧
    (check_negotiation_round P negotiation_round s).1 =
      (if s.self_node.pid = s.chosen_mb.initiator_pid then negotiation_round + 1
       else negotiation_round) := by
  unfold check_negotiation_round
  rw [if_pos h]
  by_cases hu : s.mb_is_updated = 0
  · simp only [hu, if_true, and_self]
  · simp only [hu, if_false, h, and_self]

/-- Witness for C15 as amended: the tool of `idle_follower`, which is not the
initiator, ends the negotiation and its round counter stays at 0. -/
theorem check_negotiation_round_state_witness :
    idle_follower.chosen_mb.state_flag = prot_values.NEGOTIATION ∧
    (check_negotiation_round prot_values 0 idle_follower).2.chosen_mb.state_flag = 1 ∧
    (check_negotiation_round prot_values 0 idle_follower).1 = 0 :=
  ⟨by rfl, check_negotiation_round_state prot_values 0 idle_follower (by rfl)⟩

/-! ## Properties of the solution broadcaster -/

/-- C20, at its failing input: `get_next_sd` yields 1 for the count 0 and 1
again for the count 1 (then 3, 4, 5), so a tool whose outgoing edge has three
instances sends its first two descriptors on socket descriptor 1 and the
third on 3. -/
theorem get_next_sd_repeats :
    get_next_sd 0 = 1 ∧ get_next_sd 1 = 1 ∧ get_next_sd 2 = 3 ∧ get_next_sd 3 = 4 ∧
    get_next_sd 4 = 5 ∧
    alloc_write_output_fds (fun _ => 0) sender_state = Except.ok (OP_SUCCESS, 3, [1, 1, 3]) :=
  ⟨by rfl, by rfl, by rfl, by rfl, by rfl, by rfl⟩

/-- C16, at its failing input: with the block in state
`PROT_STATE_NEGOTIATION_END`, the loop of `sgsh_negotiate` reaches the point
of transmission in state `PROT_STATE_SOLUTION_SHARE` when the graph can be
solved (`pair_ended`); when it cannot (`s3_ended`, scenario S3) the run ends
inside `solve_sgsh_graph`, in `err(1, ...)`: the state flag is never set to
`PROT_STATE_ERROR` and `sgsh_negotiate` returns no status. -/
theorem sgsh_negotiate_solve_stage_exits :
    pair_ended.chosen_mb.state_flag = prot_values.NEGOTIATION_END ∧
    sgsh_negotiate_solve_stage prot_values zero_locals 0 pair_ended =
      Except.ok (false, 0, pair_sharing) ∧
    pair_sharing.chosen_mb.state_flag = prot_values.SOLUTION_SHARE ∧
    s3_ended.chosen_mb.state_flag = prot_values.NEGOTIATION_END ∧
    solve_sgsh_graph zero_locals s3_ended = Except.error Fault.exited ∧
    sgsh_negotiate_solve_stage prot_values zero_locals 0 s3_ended =
      Except.error Fault.exited :=
  ⟨by rfl, by rfl, by rfl, by rfl, by rfl, by rfl⟩

/-! ## Properties of the codec -/

/-- C18, at its failing input: the three chunks of a block in the negotiation
state reach a tool whose held block is in the solution-share state, and
`try_read_message_block` takes the edge array for a solution and returns
`OP_ERROR` with the edge array of the fresh block missing; the chunks of a
block in the solution-share state reach a tool whose held block is in the
negotiation state, and `try_read_message_block` takes the solution records
for an edge array and ends in `err(1, ...)` on their size; and with no block
held (`chosen_mb` NULL) the state flag is read through the NULL pointer. -/
theorem try_read_message_block_follows_held_state :
    write_mb prot_values lp64 4096 (fun _ => 0) s4_registered =
      Except.ok (OP_SUCCESS, s4_sent, negotiation_chunks.map (fun c => (STDOUT_FILENO, c)), []) ∧
    s4_sent.chosen_mb.state_flag = prot_values.NEGOTIATION ∧
    pair_sharing.chosen_mb.state_flag = prot_values.SOLUTION_SHARE ∧
    try_read_message_block prot_values lp64 4096 false pair_sharing
        (delivered negotiation_chunks) =
      Except.ok (OP_ERROR,
        { header := s4_sent.chosen_mb.header, node_array := s4_sent.chosen_mb.node_array,
          edge_array := none },
        { pair_sharing with
          self_dispatcher := { index := 0, fd_direction := STDIN_FILENO }
          graph_solution := [] }, []) ∧
    write_mb prot_values lp64 4096 (fun _ => 0) pair_sharing =
      Except.ok (OP_SUCCESS, pair_sent, sharing_chunks.map (fun c => (STDOUT_FILENO, c)), [1]) ∧
    pair_sent.chosen_mb.state_flag = prot_values.SOLUTION_SHARE ∧
    s4_held.chosen_mb.state_flag = prot_values.NEGOTIATION ∧
    try_read_message_block prot_values lp64 4096 false s4_held (delivered sharing_chunks) =
      Except.error Fault.exited ∧
    try_read_message_block prot_values lp64 4096 true s4_held (delivered negotiation_chunks) =
      Except.error Fault.undefined :=
  ⟨by rfl, by rfl, by rfl, by rfl, by rfl, by rfl, by rfl, by rfl, by rfl⟩

/-- C19, at its failing input: `write_graph_solution` sends the solution of
`pair_solved`, in which every node has one incoming and one outgoing edge;
`read_graph_solution` accepts the two records, expects `sizeof(int)` = 4
bytes for the first edge array, is handed the 12 bytes of one edge and
returns `OP_ERROR` with no record rebuilt.  For a solution without any edge
the sizes agree, and the copy of the whole buffer into the empty array
allocated leaves the storage of that array. -/
theorem read_graph_solution_rejects :
    write_graph_solution lp64 4096 pair_solved =
      Except.ok (OP_SUCCESS, solution_chunks.map (fun c => (STDOUT_FILENO, c))) ∧
    read_graph_solution lp64 4096 2 s4_held (delivered solution_chunks) =
      Except.ok (OP_ERROR, { s4_held with graph_solution := [] },
        delivered (solution_chunks.drop 2)) ∧
    read_graph_solution lp64 4096 2 s4_held (delivered empty_solution_chunks) =
      Except.error Fault.undefined :=
  ⟨by rfl, by rfl, by rfl⟩

/-- The inner loop of `alloc_write_output_fds` leaves `OP_SUCCESS` or
`OP_ERROR` in `re`. -/
theorem alloc_write_output_fds_instances_code (sendmsg : Nat → Int) (n total : Nat) :
    (alloc_write_output_fds_instances sendmsg n total).1 = OP_SUCCESS ∨
    (alloc_write_output_fds_instances sendmsg n total).1 = OP_ERROR := by
  induction n generalizing total with
  | zero => left; rfl
  | succ n ih =>
    unfold alloc_write_output_fds_instances
    by_cases hs : sendmsg total < 0
    · right; simp only [hs, if_true]
    · simp only [hs, if_false]
      exact ih (total + 1)

/-- When the inner loop of `alloc_write_output_fds` leaves `OP_SUCCESS`, it
has called `sendmsg` once per instance, on the descriptors `get_next_sd`
yields for the counts from `total` on, every one of these calls has sent its
message, and the counter has advanced by as much. -/
theorem alloc_write_output_fds_instances_success (sendmsg : Nat → Int) (n total : Nat)
    (h : (alloc_write_output_fds_instances sendmsg n total).1 = OP_SUCCESS) :
    (alloc_write_output_fds_instances sendmsg n total).2.1 = total + n ∧
    (alloc_write_output_fds_instances sendmsg n total).2.2 =
      (List.range' total n).map (fun (k : Nat) => get_next_sd (k : Int)) ∧
    ∀ k, total ≤ k → k < total + n → 0 ≤ sendmsg k := by
  induction n generalizing total with
  | zero =>
    refine ⟨by simp [alloc_write_output_fds_instances],
      by simp [alloc_write_output_fds_instances], ?_⟩
    intro k h1 h2
    omega
  | succ n ih =>
    unfold alloc_write_output_fds_instances at h ⊢
    by_cases hs : sendmsg total < 0
    · simp only [hs, if_true] at h
      exact absurd h (by decide)
    · simp only [hs, if_false] at h ⊢
      have := ih (total + 1) h
      refine ⟨?_, ?_, ?_⟩
      · rw [this.1]; omega
      · rw [this.2.1, List.range'_succ]
        simp
      · intro k h1 h2
        by_cases hk : k = total
        · rw [hk]; exact not_lt.mp hs
        · exact this.2.2 k (by omega) (by omega)

/-- When the outer loop of `alloc_write_output_fds` leaves `OP_SUCCESS`, it
has called `sendmsg` once per instance of every edge, on the descriptors
`get_next_sd` yields for the counts from `total` on, every one of these calls
has sent its message, and the counter has advanced by as much. -/
theorem alloc_write_output_fds_edges_success (sendmsg : Nat → Int) (es : List sgsh_edge)
    (total : Nat) (h : (alloc_write_output_fds_edges sendmsg es total).1 = OP_SUCCESS) :
    (alloc_write_output_fds_edges sendmsg es total).2.1 =
      total + (es.map (fun e => e.instances.toNat)).sum ∧
    (alloc_write_output_fds_edges sendmsg es total).2.2 =
      (List.range' total (es.map (fun e => e.instances.toNat)).sum).map
        (fun (k : Nat) => get_next_sd (k : Int)) ∧
    ∀ k, total ≤ k → k < total + (es.map (fun e => e.instances.toNat)).sum →
      0 ≤ sendmsg k := by
  induction es generalizing total with
  | nil =>
    refine ⟨by simp [alloc_write_output_fds_edges], by simp [alloc_write_output_fds_edges], ?_⟩
    intro k h1 h2
    simp at h2
    omega
  | cons e es ih =>
    unfold alloc_write_output_fds_edges at h ⊢
    rcases alloc_write_output_fds_instances_code sendmsg e.instances.toNat total with h1 | h1
    · have hi := alloc_write_output_fds_instances_success sendmsg e.instances.toNat total h1
      have hne : ¬ (alloc_write_output_fds_instances sendmsg e.instances.toNat total).1 =
          OP_ERROR := by rw [h1]; decide
      simp only [hne, if_false] at h ⊢
      have := ih _ h
      refine ⟨?_, ?_, ?_⟩
      · rw [this.1, hi.1]; simp only [List.map_cons, List.sum_cons]; omega
      · rw [this.2.1, hi.2.1, hi.1, ← List.map_append, List.range'_append_1]
        simp only [List.map_cons, List.sum_cons]
        rw [Nat.add_comm]
      · intro k hk1 hk2
        simp only [List.map_cons, List.sum_cons] at hk2
        by_cases hk : k < total + e.instances.toNat
        · exact hi.2.2 k hk1 hk
        · refine this.2.2 k ?_ ?_
          · rw [hi.1]; omega
          · rw [hi.1]; omega
    · simp only [h1, if_true] at h
      exact absurd h (by decide)

/-- Instance counts that are not negative add up to the same number whether
they are read as `int` or as loop bounds. -/
theorem instances_toNat_sum (es : List sgsh_edge) (h : ∀ e ∈ es, 0 ≤ e.instances) :
    (((es.map (fun e => e.instances.toNat)).sum : Nat) : Int) =
      (es.map (fun e => e.instances)).sum := by
  induction es with
  | nil => simp
  | cons e es ih =>
    have h0 : 0 ≤ e.instances := h e (List.mem_cons_self _ _)
    have := ih (fun x hx => h x (List.mem_cons_of_mem _ hx))
    simp only [List.map_cons, List.sum_cons, Nat.cast_add, this, Int.toNat_of_nonneg h0]

/-! ## Auxiliary facts about flexible edges -/

/-- C21: whenever `alloc_write_output_fds` returns success with the count
`sent`, it has made exactly `sent` calls of `sendmsg`, on the descriptors
`get_next_sd` yields for the counts 0 to `sent - 1`, every one of these calls
has sent its message (none returned a negative value), and for instance
counts that are not negative `sent` is the sum of the instances over the
outgoing edges of this node's record in the solution. -/
theorem alloc_write_output_fds_conservation (sendmsg : Nat → Int) (s : State) (sent : Nat)
    (sds : List Int)
    (h : alloc_write_output_fds sendmsg s = Except.ok (OP_SUCCESS, sent, sds)) :
    ∃ this_nc, array_read s.graph_solution s.self_node.index = Except.ok this_nc ∧
      sds = (List.range sent).map (fun (k : Nat) => get_next_sd (k : Int)) ∧
      (∀ k, k < sent → 0 ≤ sendmsg k) ∧
      sent = (this_nc.edges_outgoing.map (fun e => e.instances.toNat)).sum ∧
      ((∀ e ∈ this_nc.edges_outgoing, 0 ≤ e.instances) →
        (sent : Int) = (this_nc.edges_outgoing.map (fun e => e.instances)).sum) := by
  unfold alloc_write_output_fds at h
  cases hnc : array_read s.graph_solution s.self_node.index with
  | error f => rw [hnc] at h; simp [bind, Except.bind] at h
  | ok this_nc =>
    refine ⟨this_nc, rfl, ?_⟩
    rw [hnc] at h
    simp only [bind, Except.bind] at h
    cases ha : c_assert (this_nc.node_index == s.self_node.index) with
    | error f => rw [ha] at h; simp at h
    | ok u =>
      rw [ha] at h
      simp only [] at h
      have hcode : (alloc_write_output_fds_edges sendmsg this_nc.edges_outgoing 0).1 =
          OP_SUCCESS ∧
          (alloc_write_output_fds_edges sendmsg this_nc.edges_outgoing 0).2.1 = sent ∧
          (alloc_write_output_fds_edges sendmsg this_nc.edges_outgoing 0).2.2 = sds := by
        by_cases he : (alloc_write_output_fds_edges sendmsg this_nc.edges_outgoing 0).1 =
            OP_ERROR
        · rw [if_pos he] at h
          cases hf : free_graph_solution s.chosen_mb.n_nodes s with
          | error f => rw [hf] at h; simp at h
          | ok u =>
            rw [hf] at h
            simp only [Except.ok.injEq, Prod.mk.injEq] at h
            rw [he] at h
            exact absurd h.1 (by decide)
        · rw [if_neg he] at h
          simp only [Except.ok.injEq, Prod.mk.injEq] at h
          exact h
      have hs := alloc_write_output_fds_edges_success sendmsg this_nc.edges_outgoing 0 hcode.1
      rw [hcode.2.1, hcode.2.2] at hs
      have hsent : sent = (this_nc.edges_outgoing.map (fun e => e.instances.toNat)).sum := by
        rw [hs.1]; simp
      refine ⟨?_, ?_, hsent, ?_⟩
      · rw [hs.2.1, ← hsent, List.range_eq_range']
      · intro k hk
        exact hs.2.2 k (Nat.zero_le k) (by omega)
      · intro hnn
        rw [hsent, ← instances_toNat_sum _ hnn]

/-- Witness for C21: the tool of `sender_state`, whose only outgoing edge has
three instances, sends three descriptors when no call of `sendmsg` fails; when
the second call fails no success is reported, the run ending in
`free_graph_solution`, which is told to release one record more than the
solution has. -/
theorem alloc_write_output_fds_conservation_witness :
    alloc_write_output_fds (fun _ => 0) sender_state = Except.ok (OP_SUCCESS, 3, [1, 1, 3]) ∧
    alloc_write_output_fds (fun k => if k = 1 then -1 else 0) sender_state =
      Except.error Fault.undefined ∧
    ∃ this_nc,
      array_read sender_state.graph_solution sender_state.self_node.index =
        Except.ok this_nc ∧
      [(1 : Int), 1, 3] = (List.range 3).map (fun (k : Nat) => get_next_sd (k : Int)) ∧
      (∀ k, k < 3 → (0 : Int) ≤ (fun _ => 0) k) ∧
      3 = (this_nc.edges_outgoing.map (fun e => e.instances.toNat)).sum ∧
      ((∀ e ∈ this_nc.edges_outgoing, 0 ≤ e.instances) →
        ((3 : Nat) : Int) = (this_nc.edges_outgoing.map (fun e => e.instances)).sum) :=
  ⟨by rfl, by rfl,
   alloc_write_output_fds_conservation (fun _ => 0) sender_state 3 [1, 1, 3] (by rfl)⟩

/-! ## Further properties of the codec -/

/-- C22: a tool that is sgsh-active on both sides and receives the header of
a block on standard input is left by `try_read_message_block` with standard
input as its next write direction, and one that receives it on standard
output with standard output: `point_io_direction` is called with the flag
`stdin_side`, which is 1 for standard input, and reads it as a descriptor
number, where 1 is standard output. -/
theorem try_read_message_block_keeps_side :
    (s4_held.self_node.sgsh_in ≠ 0 ∧ s4_held.self_node.sgsh_out ≠ 0) ∧
    s4_held.self_dispatcher.fd_direction = STDOUT_FILENO ∧
    (try_read_message_block prot_values lp64 4096 false s4_held
        (delivered negotiation_chunks)).map
      (fun r => (r.1, r.2.2.1.self_dispatcher.fd_direction)) =
      Except.ok (OP_SUCCESS, STDIN_FILENO) ∧
    s4_listening.self_dispatcher.fd_direction = STDIN_FILENO ∧
    (try_read_message_block prot_values lp64 4096 false s4_listening
        (delivered_on_stdout negotiation_chunks)).map
      (fun r => (r.1, r.2.2.1.self_dispatcher.fd_direction)) =
      Except.ok (OP_SUCCESS, STDOUT_FILENO) :=
  ⟨by decide, by rfl, by rfl, by rfl, by rfl⟩

/-! ## Further properties of the competition rule -/

/-- The block that comes back with the same initiator and a larger serial
number is adopted as it is, without this tool's node: `compete_message_block`
returns success with `should_transmit_mb` set, and no node of the block held
afterwards has this tool's pid. -/
theorem compete_message_block_self_missing :
    stranger_block.initiator_pid = s4_after.chosen_mb.initiator_pid ∧
    stranger_block.serial_no > s4_after.chosen_mb.serial_no ∧
    ∃ s', compete_message_block junk_edge stranger_block s4_after =
        Except.ok (OP_SUCCESS, 1, s') ∧
      ∀ nd ∈ s'.chosen_mb.node_array, nd.pid ≠ s4_after.self_node.pid :=
  ⟨by decide, by decide, _, by rfl, by decide⟩

/-- C23, amended: after `compete_message_block` returns success with
`should_transmit_mb` set, the block held lists a node with this tool's pid
when the fresh block has a smaller initiator pid than the block held before;
with equal initiator pids no node is inserted, the node list is the one of
the block kept (the fresh block when its serial number is larger, the held
one otherwise), and it lists such a node when that block did on arrival. -/
theorem compete_message_block_self_listed (new_edge : sgsh_edge) (fresh_mb : sgsh_negotiation)
    (s s' : State) (r : Int)
    (h : compete_message_block new_edge fresh_mb s = Except.ok (r, 1, s')) :
    r = OP_SUCCESS ∧
    (fresh_mb.initiator_pid < s.chosen_mb.initiator_pid →
      ∃ nd ∈ s'.chosen_mb.node_array, nd.pid = s.self_node.pid) ∧
    (fresh_mb.initiator_pid = s.chosen_mb.initiator_pid →
      s'.chosen_mb.node_array =
        (if fresh_mb.serial_no > s.chosen_mb.serial_no then fresh_mb.node_array
         else s.chosen_mb.node_array)) := by
  have hnodes : ∀ (s0 s1 : State) (r0 : Int),
      try_add_sgsh_edge new_edge s0 = Except.ok (r0, s1) →
      s1.chosen_mb.node_array = s0.chosen_mb.node_array := by
    intro s0 s1 r0 h1
    rcases try_add_sgsh_edge_cases new_edge s0 s1 r0 h1 with h | h | ⟨_, e, _, h⟩
    · rw [h.2]
    · rw [h.2]
    · rw [h]
  rcases compete_message_block_cases new_edge fresh_mb s s' r 1 h with
    ⟨hlt, hr, _, r1, s1, r2, s2, hn, he, hs'⟩ | ⟨_, _, ht, _⟩ | ⟨heq, hr, _, r2, he⟩
  · refine ⟨hr, fun _ => ?_, fun heq => absurd hlt (by rw [heq]; exact lt_irrefl _)⟩
    have h2 := hnodes _ _ _ he
    rw [hs']
    simp only []
    rw [h2]
    rw [try_add_sgsh_node_eq] at hn
    by_cases hany : fresh_mb.node_array.any (fun nd => nd.pid == s.self_node.pid) = true
    · rw [if_pos hany] at hn
      injection hn with hn
      injection hn with _ hn
      rw [← hn]
      simp only [List.any_eq_true, beq_iff_eq] at hany
      exact hany
    · rw [if_neg hany] at hn
      injection hn with hn
      injection hn with _ hn
      rw [← hn]
      exact ⟨s.self_node, by simp, rfl⟩
  · exact absurd ht (by decide)
  · refine ⟨hr, fun hlt => absurd hlt (by rw [heq]; exact lt_irrefl _), fun _ => ?_⟩
    rw [hnodes _ _ _ he]
    by_cases hgt : fresh_mb.serial_no > s.chosen_mb.serial_no
    · simp only [hgt, if_true]
    · simp only [hgt, if_false]

/-- Witness for C23 as amended: the tool with pid 200 of scenario S4 receives
the block of initiator 100 and is listed in it afterwards. -/
theorem compete_message_block_self_listed_witness :
    compete_message_block junk_edge s4_fresh s4_held = Except.ok (OP_SUCCESS, 1, s4_after) ∧
    s4_fresh.initiator_pid < s4_held.chosen_mb.initiator_pid ∧
    ∃ nd ∈ s4_after.chosen_mb.node_array, nd.pid = s4_held.self_node.pid :=
  ⟨by rfl, by decide,
   (compete_message_block_self_listed junk_edge s4_fresh s4_held s4_after OP_SUCCESS
      (by rfl)).2.1 (by decide)⟩

/-- C27: the middle tool of a chain holds the block it has forwarded, whose
dispatcher tag `write_mb` has set to the tool itself; when the block comes
back from node 2 with the same serial number, `compete_message_block`
discards it and builds the edge from the tag of the block held, so the edge
appended runs from node 1 to node 1. -/
theorem compete_message_block_self_loop :
    (write_mb prot_values lp64 4096 (fun _ => 0) middle_ready).map (fun r => (r.1, r.2.1)) =
      Except.ok (OP_SUCCESS, middle_sent) ∧
    middle_echo.initiator_pid = middle_sent.chosen_mb.initiator_pid ∧
    middle_echo.serial_no = middle_sent.chosen_mb.serial_no ∧
    middle_echo.origin.index = 2 ∧ middle_sent.self_node.index = 1 ∧
    ∃ s', compete_message_block junk_edge middle_echo middle_sent =
        Except.ok (OP_SUCCESS, 1, s') ∧
      s'.chosen_mb.edge_array = middle_looped ∧
      s'.chosen_mb.edge_array.getLast? = some { from_ := 1, to_ := 1, instances := 13 } :=
  ⟨by rfl, by decide, by decide, by decide, by decide, _, by rfl, by rfl, by rfl⟩

/-! ## Further properties of the registry -/

/-- C24: the tool that enters the graph with `try_add_sgsh_node` is stored at
position 1 of the node list with the index -1 that `fill_sgsh_node` gave it:
`add_node` copies the record before it sets `self_node.index` to the
position. -/
theorem try_add_sgsh_node_stale_index :
    newcomer.self_node.index = -1 ∧
    try_add_sgsh_node newcomer = Except.ok (OP_SUCCESS, newcomer_joined) ∧
    newcomer_joined.chosen_mb.node_array.map (fun nd => (nd.pid, nd.index)) =
      [(100, 0), (200, -1)] ∧
    newcomer_joined.self_node.index = 1 :=
  ⟨by rfl, by rfl, by rfl, by rfl⟩

/-- C25: on a block in the negotiation state with the modified flag clear,
`check_negotiation_round` sets the state flag to `PROT_STATE_NEGOTIATION_END`,
raises `serial_no` by one and sets the modified flag, and it leaves the node
list and the edge list as they were; on a block in another state, or with the
modified flag set, it leaves the whole state as it was, so the state flag,
`serial_no`, the node list and the edge list are unchanged. -/
theorem check_negotiation_round_effect (P : prot_state) (negotiation_round : Int)
    (s : State) :
    (s.chosen_mb.state_flag = P.NEGOTIATION ∧ s.mb_is_updated = 0 →
      (check_negotiation_round P negotiation_round s).2.chosen_mb.state_flag =
        P.NEGOTIATION_END ∧
      (check_negotiation_round P negotiation_round s).2.chosen_mb.serial_no =
        s.chosen_mb.serial_no + 1 ∧
      (check_negotiation_round P negotiation_round s).2.mb_is_updated = 1 ∧
      (check_negotiation_round P negotiation_round s).2.chosen_mb.node_array =
        s.chosen_mb.node_array ∧
      (check_negotiation_round P negotiation_round s).2.chosen_mb.edge_array =
        s.chosen_mb.edge_array) ∧
    (s.chosen_mb.state_flag ≠ P.NEGOTIATION ∨ s.mb_is_updated ≠ 0 →
      (check_negotiation_round P negotiation_round s).2 = s) := by
  constructor
  · rintro ⟨h1, h2⟩
    unfold check_negotiation_round
    rw [if_pos h1]
    simp only [h2, if_true, and_self]
  · intro h
    unfold check_negotiation_round
    by_cases h1 : s.chosen_mb.state_flag = P.NEGOTIATION
    · rcases h with h | h
      · exact absurd h1 h
      · rw [if_pos h1]
        simp only [h, if_false]
    · rw [if_neg h1]

/-- Witness for C25: the tool of `idle_follower` ends the negotiation, and
the tool of `s4_after`, whose modified flag is set, changes nothing. -/
theorem check_negotiation_round_effect_witness :
    (idle_follower.chosen_mb.state_flag = prot_values.NEGOTIATION ∧
      idle_follower.mb_is_updated = 0) ∧
    ((check_negotiation_round prot_values 0 idle_follower).2.chosen_mb.state_flag =
        prot_values.NEGOTIATION_END ∧
      (check_negotiation_round prot_values 0 idle_follower).2.chosen_mb.serial_no =
        idle_follower.chosen_mb.serial_no + 1 ∧
      (check_negotiation_round prot_values 0 idle_follower).2.mb_is_updated = 1 ∧
      (check_negotiation_round prot_values 0 idle_follower).2.chosen_mb.node_array =
        idle_follower.chosen_mb.node_array ∧
      (check_negotiation_round prot_values 0 idle_follower).2.chosen_mb.edge_array =
        idle_follower.chosen_mb.edge_array) ∧
    (check_negotiation_round prot_values 0 s4_after).2 = s4_after :=
  ⟨by decide, (check_negotiation_round_effect prot_values 0 idle_follower).1 (by decide),
   (check_negotiation_round_effect prot_values 0 s4_after).2 (Or.inr (by decide))⟩

/-- C28: the tool with pid 100 of scenario S4 holds its block in the
negotiation state, with itself as the only node, and receives the block of
initiator 200; `compete_message_block` discards that block and leaves the
modified flag clear, and the `check_negotiation_round` that follows sets the
state flag of the block held to `PROT_STATE_NEGOTIATION_END` and raises its
`serial_no` by one, while the block still lists one node. -/
theorem compete_message_block_discard_ends_negotiation :
    s4_alone.chosen_mb.initiator_pid < s4_foreign.initiator_pid ∧
    s4_alone.chosen_mb.state_flag = prot_values.NEGOTIATION ∧
    s4_alone.chosen_mb.serial_no = 1 ∧
    ∃ s1, compete_message_block junk_edge s4_foreign s4_alone =
        Except.ok (OP_SUCCESS, 0, s1) ∧
      s1.mb_is_updated = 0 ∧
      (check_negotiation_round prot_values 0 s1).2.chosen_mb.state_flag =
        prot_values.NEGOTIATION_END ∧
      (check_negotiation_round prot_values 0 s1).2.chosen_mb.serial_no = 2 ∧
      (check_negotiation_round prot_values 0 s1).2.chosen_mb.node_array.map
        (fun nd => nd.pid) = [100] ∧
      prot_values.NEGOTIATION_END ≠ prot_values.NEGOTIATION :=
  ⟨by decide, by rfl, by rfl, _, by rfl, by rfl, by rfl, by rfl, by rfl, by decide⟩

/-! ## Further properties of the constraint solver -/

/-- C26: a side with the fixed capacity 3, one peer that requires 1 and no
flexible peer reaches the surplus branch of `eval_constraints` with
`n_edges_unlimited_constraint` at 0, where the quotient is taken: the run of
`eval_constraints`, and with it the run of `satisfy_io_constraints`, ends in
a division by zero. -/
theorem eval_constraints_divides_by_zero :
    edge_constraints wide_nodes 0 wide_edges = Except.ok [1] ∧
    fixed_total [1] = 1 ∧ unlimited_count [1] = 0 ∧
    eval_constraints 3 1 0 0 0 0 = Except.error Fault.undefined ∧
    satisfy_io_constraints wide_nodes zero_io_locals 3 wide_edges 0 =
      Except.error Fault.undefined :=
  ⟨by rfl, by rfl, by rfl, by rfl, by rfl⟩

/-- C31: for every count that is not negative, `get_next_sd` yields neither
descriptor 0 (standard input) nor descriptor 2 (standard error). -/
theorem get_next_sd_avoids_reserved (counted_sd_descriptors : Int)
    (h : 0 ≤ counted_sd_descriptors) :
    get_next_sd counted_sd_descriptors ≠ 0 ∧ get_next_sd counted_sd_descriptors ≠ 2 := by
  unfold get_next_sd
  by_cases h1 : counted_sd_descriptors = 1
  · rw [if_pos h1]
    exact ⟨by decide, by decide⟩
  · rw [if_neg h1]
    by_cases h2 : counted_sd_descriptors = 2
    · rw [if_pos h2]
      exact ⟨by decide, by decide⟩
    · rw [if_neg h2]
      constructor <;> omega

/-- Witness for C31: the count 2, which the second case of the switch maps
to descriptor 3. -/
theorem get_next_sd_avoids_reserved_witness :
    (0 : Int) ≤ 2 ∧ get_next_sd 2 ≠ 0 ∧ get_next_sd 2 ≠ 2 :=
  ⟨by decide, get_next_sd_avoids_reserved 2 (by decide)⟩

end Sgsh
